import Mathlib

/-!
Shallow embedding of the flask-event-receiver incident service (`src/app.py`)
and proofs about its specification claims.

Modelling conventions, fixed once for the whole file:

* The relational store is modelled as explicit Lean data (`DB`), with the
  `eventos` table as a `List Evento`.  SQL `NULL` and the empty string `''`
  are identified: every textual column is a plain `String`, with `""`
  standing for both `NULL` and `''`.  This is faithful for every query the
  claims touch, since the source only ever distinguishes them through
  `COALESCE(x,'')`, `NULLIF(x,'')` and `(x IS NULL OR x = '')`, all of which
  agree under the identification.
* Timestamps written in the `"%Y-%m-%d %H:%M:%S"` format are modelled as
  `Nat` (seconds).  The format is fixed-width, so string equality and string
  ordering in SQL agree with numeric equality/ordering on the modelled
  value; `datetime.strptime` of an app-written timestamp always succeeds.
  Timestamp-valued columns that can also hold `''` (`confirmado_em`,
  `tratamento_em`) are `Option Nat`, with `none` for `''`/`NULL`.
* `hashlib.sha1` over base64-decoded bytes (`_sha1_from_b64_image`) is a
  deterministic function of the stored base64 string; its cryptographic core
  is abstracted as a parameter `hash : String → String` threaded through the
  operations (the wrapper's guard for empty input is kept explicit).
* `ORDER BY id DESC LIMIT 1` is modelled by `maxById` (the member with the
  largest `id`); row ids are unique in every reachable database, which is
  carried as an explicit hypothesis `uniqueIds` where a proof needs it.
-/

namespace App

/-- A row of the `eventos` table (`eventos_tb`, src/app.py lines 54-97).
Column order and names follow the source; `imgUrl` is `img_url`, etc. -/
structure Evento where
  id : Nat
  timestamp : Nat
  status : String
  objeto : String
  descricao : String
  imagem : String
  identificador : String
  imgUrl : String
  cameraId : String
  cameraName : String
  localTxt : String
  descricaoRaw : String
  descricaoPt : String
  modelYolo : String
  classes : String
  yoloConf : String
  yoloImgsz : String
  jobId : String
  sha256 : String
  fileName : String
  llavaPt : String
  durLlavaMs : String
  confirmado : String
  relatoOperador : String
  confirmadoPor : String
  confirmadoEm : Option Nat
  tratamentoStatus : String
  tratamentoResumo : String
  tratamentoEm : Option Nat
  vitimasAparentes : String
  criancasOuIdosos : String
  emAndamento : String
deriving Repr, DecidableEq

/-- A default/blank incident row: every textual column `''`, ids and times 0.
Matches a freshly inserted row where unspecified columns are NULL. -/
def Evento.blank : Evento where
  id := 0
  timestamp := 0
  status := ""
  objeto := ""
  descricao := ""
  imagem := ""
  identificador := ""
  imgUrl := ""
  cameraId := ""
  cameraName := ""
  localTxt := ""
  descricaoRaw := ""
  descricaoPt := ""
  modelYolo := ""
  classes := ""
  yoloConf := ""
  yoloImgsz := ""
  jobId := ""
  sha256 := ""
  fileName := ""
  llavaPt := ""
  durLlavaMs := ""
  confirmado := ""
  relatoOperador := ""
  confirmadoPor := ""
  confirmadoEm := none
  tratamentoStatus := ""
  tratamentoResumo := ""
  tratamentoEm := none
  vitimasAparentes := ""
  criancasOuIdosos := ""
  emAndamento := ""

/-- The 19 columns of `base_row` in `receber_evento` other than `timestamp`:
exactly the columns the merge UPDATE at lines 1066-1076 runs
`k = COALESCE(NULLIF(:k,''), k)` over. -/
inductive Campo where
  | status | objeto | descricao | imagem | imgUrl | identificador
  | cameraId | cameraName | localTxt | descricaoRaw | descricaoPt
  | modelYolo | classes | yoloConf | yoloImgsz
  | jobId | sha256 | fileName | llavaPt
deriving Repr, DecidableEq

/-- Read the column named by a `Campo` from a row. -/
def campoGet : Campo → Evento → String
  | .status, e => e.status
  | .objeto, e => e.objeto
  | .descricao, e => e.descricao
  | .imagem, e => e.imagem
  | .imgUrl, e => e.imgUrl
  | .identificador, e => e.identificador
  | .cameraId, e => e.cameraId
  | .cameraName, e => e.cameraName
  | .localTxt, e => e.localTxt
  | .descricaoRaw, e => e.descricaoRaw
  | .descricaoPt, e => e.descricaoPt
  | .modelYolo, e => e.modelYolo
  | .classes, e => e.classes
  | .yoloConf, e => e.yoloConf
  | .yoloImgsz, e => e.yoloImgsz
  | .jobId, e => e.jobId
  | .sha256, e => e.sha256
  | .fileName, e => e.fileName
  | .llavaPt, e => e.llavaPt

/-- A row of the generated `evento_tratamento` association table
(created in `_ensure_tratamento_tables_and_seed`); `createdAt` models the
`created_at TIMESTAMP DEFAULT NOW()` column. -/
structure TratRow where
  eventoId : Nat
  qualificacaoId : Nat
  gravidadeId : Nat
  protocoloId : Nat
  meioId : Nat
  orgaoId : Nat
  createdAt : Nat
deriving Repr, DecidableEq

/-- A row of the `qualificacao_tratamento` lookup matrix
(one per qualification: its primary key is `qualificacao_id`). -/
structure QualTrat where
  qualificacaoId : Nat
  gravidadeId : Nat
  protocoloId : Nat
  meioId : Nat
  orgaoId : Nat
deriving Repr, DecidableEq

/-- The database state: the incident table plus the association and lookup
tables that the confirmation workflow touches.  Lookup tables map ids to
names (`qualificacao_incidente`, `gravidade`, `meio_acionamento`,
`orgao_acionado`). -/
structure DB where
  eventos : List Evento
  eventoQualificacao : List (Nat × Nat)
  eventoTratamento : List TratRow
  qualificacaoIncidente : List (Nat × String)
  gravidade : List (Nat × String)
  meioAcionamento : List (Nat × String)
  orgaoAcionado : List (Nat × String)
  qualificacaoTratamento : List QualTrat
deriving Repr, DecidableEq

/-- Configuration knobs read from the environment (src/app.py lines 19-23).
`hiRows` and `loRows` stand for `int(MAX_ROWS * PRUNE_THRESHOLD)` and
`int(MAX_ROWS * PRUNE_TARGET)` respectively, precomputed so the model does
not depend on floating-point arithmetic. -/
structure Config where
  updateWindowSec : Nat := 15
  pruneBatch : Nat := 1000
  maxRows : Nat := 500000
  hiRows : Nat := 400000
  loRows : Nat := 350000
deriving Repr, DecidableEq

/-- CONFIRM_VALUE constant (line 25). -/
def CONFIRM_VALUE : String := "SIM"

/-- The `_trim` helper (line 934): `(s or "").strip()` — strip whitespace
from both ends (implemented over the character list so that it evaluates
inside the kernel). -/
def trim (s : String) : String :=
  String.mk (((s.data.dropWhile Char.isWhitespace).reverse.dropWhile
    Char.isWhitespace).reverse)

/-- `str.replace("\n", "<br>")` as used on description fields
(lines 1002 and 1123). -/
def replaceNlBr (s : String) : String :=
  String.mk (s.data.foldr
    (fun c acc => if c = '\n' then '<' :: 'b' :: 'r' :: '>' :: acc else c :: acc) [])

/-- Split a character list at the first occurrence of `pat`: the part
before and the part after, when `pat` occurs. -/
def findSplit (pat : List Char) : List Char → Option (List Char × List Char)
  | [] => none
  | c :: cs =>
    if List.isPrefixOf pat (c :: cs) then some ([], (c :: cs).drop pat.length)
    else
      match findSplit pat cs with
      | some res => some (c :: res.1, res.2)
      | none => none

/-- The `COALESCE(NULLIF(new,''), old)` idiom used by the merge UPDATE:
take the incoming value when non-empty, otherwise keep the stored one. -/
def coal (newV oldV : String) : String := if newV = "" then oldV else newV

/-- Models `_sha1_from_b64_image` (lines 937-951): `''` for empty input,
otherwise a deterministic digest of the stored base64 string.  `hash`
abstracts the data-URL stripping, base64 decode and SHA-1 hex digest; it may
return `""`, modelling the `except` branch for undecodable input. -/
def sha1FromB64 (hash : String → String) (imgB64 : String) : String :=
  if imgB64 = "" then "" else hash imgB64

/-- Models `_split_yolo_llava` (lines 892-900): split a combined description
at the marker that introduces the secondary-analysis text.  The source uses
a regex tolerant of surrounding whitespace and case; the model splits at the
literal marker, which is the form the pipeline emits. -/
def splitYoloLlava (desc : String) : String × String :=
  if desc = "" then ("", "")
  else
    match findSplit "🌐 Analisar local:".data desc.data with
    | none => (trim desc, "")
    | some res => (trim (String.mk res.1), trim (String.mk res.2))

/-- SELECT ... ORDER BY id DESC LIMIT 1: the member with the largest id
(ids are unique in reachable states, so ties do not arise). -/
def maxById : List Evento → Option Evento
  | [] => none
  | e :: es =>
    match maxById es with
    | none => some e
    | some m => if m.id > e.id then some m else some e

/-- SELECT ... WHERE id = :id (first match). -/
def rowById (db : DB) (i : Nat) : Option Evento :=
  db.eventos.find? (fun e => e.id = i)

/-- UPDATE eventos SET ... WHERE id = :id, applying `f` to every row whose
id matches (there is at most one in a reachable state). -/
def updateEvento (db : DB) (i : Nat) (f : Evento → Evento) : DB :=
  { db with eventos := db.eventos.map (fun e => if e.id = i then f e else e) }

/-- Row ids are pairwise distinct (true of every reachable database, the
incident table's primary key). -/
def uniqueIds (db : DB) : Prop :=
  db.eventos.Pairwise (fun a b => a.id ≠ b.id)

/-- All stored digests and confirmation flags are fixed under `strip()`
(true of reachable states: every write of these columns stores either a
constant or an already-trimmed value). -/
def trimNormalized (db : DB) : Prop :=
  ∀ e ∈ db.eventos, (trim e.sha256 = e.sha256) ∧ (trim e.confirmado = e.confirmado)

instance (db : DB) : Decidable (uniqueIds db) := by
  unfold uniqueIds; infer_instance

instance (db : DB) : Decidable (trimNormalized db) := by
  unfold trimNormalized; infer_instance

theorem maxById_none_aux {l : List Evento} (h : maxById l = none) : l = [] := by
  cases l with
  | nil => rfl
  | cons e es =>
    simp only [maxById] at h
    cases hm : maxById es with
    | none => rw [hm] at h; simp at h
    | some m => rw [hm] at h; by_cases hgt : m.id > e.id <;> simp [hgt] at h

theorem maxById_mem (l : List Evento) : ∀ r, maxById l = some r → r ∈ l := by
  induction l with
  | nil => intro r h; simp [maxById] at h
  | cons e es ih =>
    intro r h
    simp only [maxById] at h
    cases hm : maxById es with
    | none =>
      simp only [hm] at h
      injection h with h
      exact h ▸ List.mem_cons_self e es
    | some m =>
      simp only [hm] at h
      by_cases hgt : m.id > e.id
      · rw [if_pos hgt] at h
        injection h with h
        exact h ▸ List.mem_cons_of_mem e (ih m hm)
      · rw [if_neg hgt] at h
        injection h with h
        exact h ▸ List.mem_cons_self e es

theorem maxById_isMax (l : List Evento) : ∀ r, maxById l = some r → ∀ e ∈ l, e.id ≤ r.id := by
  induction l with
  | nil => simp
  | cons a es ih =>
    intro r h e he
    simp only [maxById] at h
    cases hm : maxById es with
    | none =>
      simp only [hm] at h
      injection h with h
      have hes : es = [] := maxById_none_aux hm
      subst hes
      rcases List.mem_singleton.mp he with rfl
      exact h ▸ le_refl _
    | some m =>
      simp only [hm] at h
      have hmax := ih m hm
      rcases List.mem_cons.mp he with rfl | hmem
      · by_cases hgt : m.id > e.id
        · rw [if_pos hgt] at h; injection h with h; subst h; omega
        · rw [if_neg hgt] at h; injection h with h; subst h; omega
      · have hle := hmax e hmem
        by_cases hgt : m.id > a.id
        · rw [if_pos hgt] at h; injection h with h; subst h; omega
        · rw [if_neg hgt] at h; injection h with h; subst h; omega

theorem maxById_none_iff (l : List Evento) : maxById l = none ↔ l = [] := by
  cases l with
  | nil => simp [maxById]
  | cons e es =>
    simp only [maxById]
    constructor
    · intro h
      cases hm : maxById es with
      | none => rw [hm] at h; simp at h
      | some m => rw [hm] at h; by_cases hgt : m.id > e.id <;> simp [hgt] at h
    · intro h; simp at h

/-- Two members of a duplicate-id-free list with the same id are equal. -/
theorem pairwiseIds_eq : ∀ {l : List Evento}, l.Pairwise (fun a b => a.id ≠ b.id) →
    ∀ e1 ∈ l, ∀ e2 ∈ l, e1.id = e2.id → e1 = e2 := by
  intro l
  induction l with
  | nil => intro _; simp
  | cons a t ih =>
    intro hU e1 h1 e2 h2 hid
    obtain ⟨ha, ht⟩ := List.pairwise_cons.mp hU
    rcases List.mem_cons.mp h1 with h1e | h1t
    · rcases List.mem_cons.mp h2 with h2e | h2t
      · exact h1e.trans h2e.symm
      · have hcontr : a.id = e2.id := by rw [← h1e]; exact hid
        exact absurd hcontr (ha e2 h2t)
    · rcases List.mem_cons.mp h2 with h2e | h2t
      · have hcontr : a.id = e1.id := by rw [← h2e]; exact hid.symm
        exact absurd hcontr (ha e1 h1t)
      · exact ih ht e1 h1t e2 h2t hid

/-- Two rows of a database with unique ids and the same id are equal. -/
theorem uniqueIds_eq {db : DB} (hU : uniqueIds db) :
    ∀ e1 ∈ db.eventos, ∀ e2 ∈ db.eventos, e1.id = e2.id → e1 = e2 :=
  pairwiseIds_eq hU

theorem rowById_mem {db : DB} {i : Nat} {e : Evento} (h : rowById db i = some e) :
    e ∈ db.eventos ∧ e.id = i := by
  unfold rowById at h
  have hm := List.mem_of_find?_eq_some h
  have hp := List.find?_some h
  simp only [decide_eq_true_eq] at hp
  exact ⟨hm, hp⟩


/-! ## Retention engine (`prune_if_needed`, src/app.py lines 2475-2545)

Only the row-count strategy (the non-sqlite branch, lines 2516-2540) is
modelled; the capacity-ratio branch reads `os.statvfs` disk usage, which has
no shallow embedding.  Deletion order `ORDER BY timestamp ASC` is modelled
by sorting on `(timestamp, id)` and dropping a prefix; a table is a
multiset, so re-ordering the backing list is unobservable. -/

/-- Ordering used to pick eviction victims: oldest timestamp first
(id as the deterministic tie-break for `ORDER BY timestamp ASC`). -/
def evLe (a b : Evento) : Bool :=
  a.timestamp < b.timestamp || (a.timestamp = b.timestamp && a.id ≤ b.id)

/-- Insert into a list sorted by `evLe`. -/
def insertEv (a : Evento) : List Evento → List Evento
  | [] => [a]
  | b :: bs => if evLe a b then a :: b :: bs else b :: insertEv a bs

/-- Sort rows oldest-first. -/
def sortByTs (l : List Evento) : List Evento := l.foldr insertEv []

/-- One `DELETE ... WHERE id IN (SELECT id ORDER BY timestamp ASC LIMIT lim)`
batch: returns the surviving rows and the rowcount of deleted rows
(`min lim` count — the statement deletes every selected row). -/
def deleteOldest (rows : List Evento) (lim : Nat) : List Evento × Nat :=
  ((sortByTs rows).drop lim, min lim rows.length)

/-- The `while to_remove > 0` eviction loop (lines 2525-2540).  Structurally
recursive on a fuel argument initialised to `toRemove`; every continuing
iteration removes at least one row, so the fuel never runs out when it
starts at `toRemove` (proved below, not assumed). -/
def pruneLoopFuel (batch : Nat) : Nat → Nat → List Evento → List Evento
  | 0, _, rows => rows
  | fuel + 1, toRemove, rows =>
    if toRemove = 0 then rows
    else
      let step := min batch toRemove
      let res := deleteOldest rows step
      if res.2 = 0 then res.1
      else pruneLoopFuel batch fuel (toRemove - res.2) res.1

/-- The eviction loop with fuel instantiated. -/
def pruneLoop (batch toRemove : Nat) (rows : List Evento) : List Evento :=
  pruneLoopFuel batch toRemove toRemove rows

/-- `prune_if_needed`, row-count strategy: no-op when
`total_rows <= int(MAX_ROWS * PRUNE_THRESHOLD)`; otherwise evict down to
`int(MAX_ROWS * PRUNE_TARGET)` rows in batches.  Deleting an incident
cascades into `evento_tratamento` (its FK is `ON DELETE CASCADE`);
`evento_qualificacao` has no FK and keeps its rows. -/
def pruneIfNeeded (cfg : Config) (db : DB) : DB :=
  let totalRows := db.eventos.length
  if totalRows ≤ cfg.hiRows then db
  else
    let targetRows := cfg.loRows
    let toRemove := totalRows - targetRows
    let evs := pruneLoop cfg.pruneBatch toRemove db.eventos
    { db with
      eventos := evs
      eventoTratamento :=
        db.eventoTratamento.filter (fun t => evs.any (fun e => e.id = t.eventoId)) }

/-! ## Ingestion endpoint (`receber_evento`, src/app.py lines 959-1092) -/

/-- The JSON payload of POST `/evento` after alias resolution: each field
stands for the corresponding `dados.get(...)` chain (absent keys resolve to
`""`), before any `_trim`:
`imgUrl` = `img_url|url|image_url|img`, `descricaoRaw` =
`descricao_raw|description`, `descricaoPt` = `descricao_pt|description`,
`sha256` = `sha256|img_hash|sha`, `modelYolo` = `model_yolo|model`,
`yoloConf` = `yolo_conf|conf`, `yoloImgsz` = `yolo_imgsz|imgsz`.
`objeto` is `dados.get("object", "")` and `identificador` is
`dados.get("identificador", "desconhecido")` (hence `Option`). -/
structure EvPayload where
  jobId : String := ""
  cameraId : String := ""
  cameraName : String := ""
  localTxt : String := ""
  imgUrl : String := ""
  descricaoYoloPt : String := ""
  descricaoRaw : String := ""
  descricaoPt : String := ""
  modelYolo : String := ""
  classes : String := ""
  yoloConf : String := ""
  yoloImgsz : String := ""
  sha256 : String := ""
  fileName : String := ""
  image : String := ""
  llavaPt : String := ""
  detected : Bool := false
  objeto : String := ""
  identificador : Option String := none
deriving Repr, DecidableEq

/-- The `base_row` dict built by `receber_evento` (lines 962-1019), as an
incident row with the auto-increment id still unassigned (0). -/
def mkBaseRow (hash : String → String) (p : EvPayload) (now : Nat) : Evento :=
  let jobId := trim p.jobId
  let yoloDescIn0 := trim p.descricaoYoloPt
  let descPtIn := trim p.descricaoPt
  let split :=
    if yoloDescIn0 = "" ∧ descPtIn ≠ "" then splitYoloLlava descPtIn
    else (yoloDescIn0, "")
  let yoloDescIn := split.1
  let llavaExtra := split.2
  let sha0 := trim p.sha256
  let imgB64 := trim p.image
  let sha := if sha0 = "" ∧ imgB64 ≠ "" then sha1FromB64 hash imgB64 else sha0
  let llavaPtIn0 := trim p.llavaPt
  let llavaPtIn := if llavaPtIn0 = "" then llavaExtra else llavaPtIn0
  { Evento.blank with
    timestamp := now
    status := if p.detected then "alerta" else "ok"
    objeto := p.objeto
    descricao := replaceNlBr yoloDescIn
    imagem := imgB64
    imgUrl := trim p.imgUrl
    identificador := p.identificador.getD "desconhecido"
    cameraId := trim p.cameraId
    cameraName := trim p.cameraName
    localTxt := trim p.localTxt
    descricaoRaw := trim p.descricaoRaw
    descricaoPt := yoloDescIn
    modelYolo := trim p.modelYolo
    classes := trim p.classes
    yoloConf := trim p.yoloConf
    yoloImgsz := trim p.yoloImgsz
    jobId := if jobId = "" then sha else jobId
    sha256 := sha
    fileName := trim p.fileName
    llavaPt := llavaPtIn }

/-- The correlation resolver `_row_by_keys` (lines 1021-1054): tier 1 is an
exact `(job_id, sha256)` match (only tried when the fragment carries a
digest), tier 2 the most recent `job_id` row when its timestamp is within
`UPDATE_WINDOW_SEC` of now.  `now - timestamp` is the signed elapsed time
(`total_seconds() <= UPDATE_WINDOW_SEC`). -/
def rowByKeys (cfg : Config) (db : DB) (base : Evento) (now : Nat) : Option Evento :=
  if base.jobId = "" then none
  else
    let tier1 :=
      if base.sha256 ≠ "" then
        maxById (db.eventos.filter
          (fun e => e.jobId = base.jobId && e.sha256 = base.sha256))
      else none
    match tier1 with
    | some r => some r
    | none =>
      match maxById (db.eventos.filter (fun e => e.jobId = base.jobId)) with
      | some r =>
        if (now : Int) - (r.timestamp : Int) ≤ (cfg.updateWindowSec : Int) then some r
        else none
      | none => none

/-- The merge UPDATE of `receber_evento` (lines 1060-1076):
`k = COALESCE(NULLIF(:k,''), k)` for every `base_row` column except
`timestamp`, which is set to now. -/
def mergeEvento (old base : Evento) (now : Nat) : Evento :=
  { old with
    timestamp := now
    status := coal base.status old.status
    objeto := coal base.objeto old.objeto
    descricao := coal base.descricao old.descricao
    imagem := coal base.imagem old.imagem
    imgUrl := coal base.imgUrl old.imgUrl
    identificador := coal base.identificador old.identificador
    cameraId := coal base.cameraId old.cameraId
    cameraName := coal base.cameraName old.cameraName
    localTxt := coal base.localTxt old.localTxt
    descricaoRaw := coal base.descricaoRaw old.descricaoRaw
    descricaoPt := coal base.descricaoPt old.descricaoPt
    modelYolo := coal base.modelYolo old.modelYolo
    classes := coal base.classes old.classes
    yoloConf := coal base.yoloConf old.yoloConf
    yoloImgsz := coal base.yoloImgsz old.yoloImgsz
    jobId := coal base.jobId old.jobId
    sha256 := coal base.sha256 old.sha256
    fileName := coal base.fileName old.fileName
    llavaPt := coal base.llavaPt old.llavaPt }

/-- Auto-increment: the next id is one above the largest id in the table. -/
def nextId (db : DB) : Nat :=
  (db.eventos.foldl (fun acc e => max acc e.id) 0) + 1

/-- INSERT INTO eventos with a fresh auto-increment id. -/
def insertEvento (db : DB) (row : Evento) : DB × Nat :=
  let i := nextId db
  ({ db with eventos := { row with id := i } :: db.eventos }, i)

/-- The merge-or-create core of `receber_evento` (lines 1056-1089), without
the trailing retention sweep: resolve the fragment, then merge into the
matched row or insert a new one; returns the resolved incident id. -/
def receberEventoCore (hash : String → String) (cfg : Config) (db : DB)
    (p : EvPayload) (now : Nat) : DB × Nat :=
  let base := mkBaseRow hash p now
  match rowByKeys cfg db base now with
  | some r => (updateEvento db r.id (fun old => mergeEvento old base now), r.id)
  | none => insertEvento db base

/-- POST `/evento` (lines 959-1092): merge-or-create, then
`prune_if_needed(conn)`, then `{"ok": True, "id": ev_id}`. -/
def receberEvento (hash : String → String) (cfg : Config) (db : DB)
    (p : EvPayload) (now : Nat) : DB × Nat :=
  let core := receberEventoCore hash cfg db p now
  (pruneIfNeeded cfg core.1, core.2)

/-- POST `/evento` with transaction semantics made explicit.  The handler
runs the merge/create and `prune_if_needed` on one connection inside a
single `with engine.begin()` block and `prune_if_needed` wraps none of its
COUNT/DELETE statements in try/except, so a storage error raised at the
start of the sweep (before its first `conn.commit()`) propagates, rolls the
whole transaction back — merge/create included — and the request fails with
a server error instead of returning `{"ok": True}`.  `pruneRaises` models
such an error; the result is `some id` for an HTTP 200 with the resolved
id, `none` for the HTTP 500. -/
def receberEventoTx (hash : String → String) (cfg : Config) (db : DB)
    (p : EvPayload) (now : Nat) (pruneRaises : Bool) : DB × Option Nat :=
  let core := receberEventoCore hash cfg db p now
  if pruneRaises then (db, none)
  else (pruneIfNeeded cfg core.1, some core.2)

/-! ## Secondary-analysis endpoint (`receber_resposta_ia`, lines 1094-1170) -/

/-- The JSON payload of POST `/resposta_ia`; `llavaPt` stands for
`dados.get("resposta") or dados.get("llava_pt")` and `sha256` for the
`sha256|img_hash|sha` chain. -/
structure RespostaPayload where
  jobId : String := ""
  identificador : String := ""
  cameraId : String := ""
  cameraName : String := ""
  localTxt : String := ""
  llavaPt : String := ""
  durLlavaMs : String := ""
  sha256 : String := ""
  fileName : String := ""
deriving Repr, DecidableEq

/-- POST `/resposta_ia`: find the most recent row with the same `job_id`
(no recency window, no digest tier); if found, UPDATE
`llava_pt=:llp, dur_llava_ms=:dur` unconditionally,
`local`/`camera_name` via `COALESCE(NULLIF(:new,''), old)`, and
`sha256`/`file_name` via `COALESCE(NULLIF(old,''), NULLIF(:new,''))`
(stored value wins when non-empty); otherwise insert a minimal incident
(lines 1119-1143).  The row's `timestamp` is not touched by the UPDATE.
Ends with `prune_if_needed`. -/
def receberRespostaIa (cfg : Config) (db : DB) (p : RespostaPayload)
    (now : Nat) : DB :=
  let jobId := trim p.jobId
  let ident := trim p.identificador
  let cameraId := trim p.cameraId
  let cameraName := trim p.cameraName
  let localTxt := trim p.localTxt
  let llavaPt := trim p.llavaPt
  let durMs := trim p.durLlavaMs
  let sha := trim p.sha256
  let fileName := trim p.fileName
  let target :=
    if jobId ≠ "" then maxById (db.eventos.filter (fun e => e.jobId = jobId))
    else none
  let db1 :=
    match target with
    | none =>
      (insertEvento db
        { Evento.blank with
          timestamp := now
          status := "ok"
          objeto := "Análise IA"
          descricao := replaceNlBr llavaPt
          identificador := if ident = "" then "desconhecido" else ident
          cameraId := cameraId
          cameraName := cameraName
          localTxt := localTxt
          jobId := if jobId = "" then sha else jobId
          sha256 := sha
          fileName := fileName
          llavaPt := llavaPt
          durLlavaMs := durMs }).1
    | some r =>
      updateEvento db r.id (fun old =>
        { old with
          llavaPt := llavaPt
          durLlavaMs := durMs
          localTxt := coal localTxt old.localTxt
          cameraName := coal cameraName old.cameraName
          sha256 := if old.sha256 ≠ "" then old.sha256 else sha
          fileName := if old.fileName ≠ "" then old.fileName else fileName })
  pruneIfNeeded cfg db1

/-! ## Confirmation workflow (src/app.py lines 1666-2005) -/

/-- Clearing performed by both unconfirm paths (`api_desconfirmar` lines
1988-2004 and the `desconfirmar` branch of `confirmar_ui` lines 1724-1738):
every confirmation, treatment-flatten and supplemental column to `''`. -/
def clearConfirm (e : Evento) : Evento :=
  { e with
    confirmado := ""
    relatoOperador := ""
    confirmadoPor := ""
    confirmadoEm := none
    tratamentoStatus := ""
    tratamentoResumo := ""
    tratamentoEm := none
    vitimasAparentes := ""
    criancasOuIdosos := ""
    emAndamento := "" }

/-- The conflict lookup shared by both confirm paths (lines 1714-1720 and
1926-1932): the most recent other row with the same digest already
confirmed. -/
def conflictOutroRegistro (db : DB) (sha : String) (evId : Nat) : Option Evento :=
  maxById (db.eventos.filter
    (fun e => e.sha256 = sha && e.confirmado = CONFIRM_VALUE && e.id ≠ evId))

/-- `dict.fromkeys` / repeated `ON CONFLICT DO NOTHING` inserts: keep the
first occurrence of each id. -/
def dedupKeepFirst (l : List Nat) : List Nat :=
  l.foldl (fun acc x => if acc.contains x then acc else acc ++ [x]) []

/-- `_salvar_qualificacoes_evento` (lines 165-178): delete the incident's
qualification associations, then insert the selected ids. -/
def salvarQualificacoesEvento (db : DB) (evId : Nat) (qualIds : List Nat) : DB :=
  { db with
    eventoQualificacao :=
      db.eventoQualificacao.filter (fun r => r.1 ≠ evId)
        ++ (dedupKeepFirst qualIds).map (fun q => (evId, q)) }

/-- `_salvar_tratamento_evento` (lines 374-388): delete the incident's
treatment rows, then for each selected qualification insert the row joined
from the `qualificacao_tratamento` matrix (its primary key is the
qualification id, so at most one matrix row matches); `created_at` defaults
to now. -/
def salvarTratamentoEvento (db : DB) (evId : Nat) (qualIds : List Nat)
    (now : Nat) : DB :=
  let newRows := (dedupKeepFirst qualIds).filterMap (fun qid =>
    (db.qualificacaoTratamento.find? (fun qt => qt.qualificacaoId = qid)).map
      (fun qt =>
        { eventoId := evId
          qualificacaoId := qid
          gravidadeId := qt.gravidadeId
          protocoloId := qt.protocoloId
          meioId := qt.meioId
          orgaoId := qt.orgaoId
          createdAt := now : TratRow }))
  { db with
    eventoTratamento :=
      db.eventoTratamento.filter (fun t => t.eventoId ≠ evId) ++ newRows }

/-- Look a name up in a `(id, nome)` lookup table. -/
def lookupNome (tbl : List (Nat × String)) (i : Nat) : Option String :=
  (tbl.find? (fun q => q.1 = i)).map (fun q => q.2)

/-- The names joined for one `evento_tratamento` row in
`_refresh_tratamento_flat`: qualification, gravity, channel, agency. -/
structure JoinedTrat where
  qualNome : String
  gravNome : String
  meioNome : String
  orgaoNome : String
  createdAt : Nat
deriving Repr, DecidableEq

/-- The inner join of `_refresh_tratamento_flat` (lines 400-414): a
treatment row contributes only when all four lookups resolve. -/
def joinTratamento (db : DB) (evId : Nat) : List JoinedTrat :=
  (db.eventoTratamento.filter (fun t => t.eventoId = evId)).filterMap (fun t =>
    match lookupNome db.qualificacaoIncidente t.qualificacaoId,
        lookupNome db.gravidade t.gravidadeId,
        lookupNome db.meioAcionamento t.meioId,
        lookupNome db.orgaoAcionado t.orgaoId with
    | some qn, some gn, some mn, some orn =>
      some { qualNome := qn, gravNome := gn, meioNome := mn, orgaoNome := orn,
             createdAt := t.createdAt }
    | _, _, _, _ => none)

/-- Lexicographic comparison on strings via their character lists
(kernel-evaluable `ORDER BY` collation). -/
def charListLe : List Char → List Char → Bool
  | [], _ => true
  | _ :: _, [] => false
  | a :: as, b :: bs => if a = b then charListLe as bs else decide (a < b)

/-- String order used for `ORDER BY nome`. -/
def strLe (a b : String) : Bool := charListLe a.data b.data

/-- `s[:n]` — the first `n` characters (via the character list, so that it
evaluates without deep `Nat` recursion). -/
def strTake (s : String) (n : Nat) : String := String.mk (s.data.take n)

/-- Insert into a lexicographically sorted list of strings. -/
def insertSorted (a : String) : List String → List String
  | [] => [a]
  | b :: bs => if strLe a b then a :: b :: bs else b :: insertSorted a bs

/-- Sort strings ascending. -/
def sortStrings (l : List String) : List String := l.foldr insertSorted []

/-- `STRING_AGG(DISTINCT x, ', ' ORDER BY x)`. -/
def stringAggDistinct (l : List String) : String :=
  String.intercalate ", " (sortStrings l.dedup)

/-- `_refresh_tratamento_flat` (lines 392-445): recompute the flattened
`tratamento_*` columns of the incident from its joined treatment rows.
With no joined row: status becomes `'PENDENTE'` when the row is confirmed,
otherwise the columns are left as they are (the CASE arms are identities
under the NULL-as-`''` convention).  Otherwise: status `'TRATADO'`, a
summary aggregated from the distinct sorted names truncated to 2000
characters, and the latest `created_at`. -/
def refreshTratamentoFlat (db : DB) (evId : Nat) : DB :=
  let joined := joinTratamento db evId
  if joined.length = 0 then
    updateEvento db evId (fun e =>
      { e with
        tratamentoStatus :=
          if e.confirmado = CONFIRM_VALUE then "PENDENTE" else e.tratamentoStatus })
  else
    let quals := stringAggDistinct (joined.map (fun j => j.qualNome))
    let gravs := stringAggDistinct (joined.map (fun j => j.gravNome))
    let meios := stringAggDistinct (joined.map (fun j => j.meioNome))
    let orgaos := stringAggDistinct (joined.map (fun j => j.orgaoNome))
    let lastAt := joined.foldl (fun acc j => max acc j.createdAt) 0
    let parts :=
      (if gravs ≠ "" then ["Gravidade: " ++ gravs] else [])
        ++ (if orgaos ≠ "" then ["Órgão: " ++ orgaos] else [])
        ++ (if meios ≠ "" then ["Meio: " ++ meios] else [])
        ++ (if quals ≠ "" then ["Qualificação: " ++ quals] else [])
    let resumo := strTake (String.intercalate " | " parts) 2000
    updateEvento db evId (fun e =>
      { e with
        tratamentoStatus := "TRATADO"
        tratamentoResumo := resumo
        tratamentoEm := some lastAt })

/-- The confirm UPDATE shared verbatim by both endpoints (lines 1756-1779
and 1948-1974): set the confirmation columns, mark treatment pending, keep
an existing `tratamento_em`, lazily attach the digest computed from the
target's inline image when its stored digest is empty (`cur` is the row as
read inside the transaction; the lazy digest condition uses its values). -/
def confirmUpdate (hash : String → String) (cur : Evento)
    (conf relato operador va ci ea : String) (now : Nat) (e : Evento) : Evento :=
  let shaCalc :=
    if cur.sha256 = "" ∧ cur.imagem ≠ "" then sha1FromB64 hash cur.imagem else ""
  { e with
    confirmado := conf
    relatoOperador := relato
    confirmadoPor := operador
    confirmadoEm := some now
    tratamentoStatus := "PENDENTE"
    tratamentoEm := some (e.tratamentoEm.getD now)
    sha256 := if e.sha256 ≠ "" then e.sha256 else shaCalc
    vitimasAparentes := va
    criancasOuIdosos := ci
    emAndamento := ea }

/-- The JSON payload of POST `/api/confirmar`; `relato` stands for
`relato|relato_operador` and `operador` for `operador|confirmado_por`;
string fields are `""` when absent (Python-falsy values collapse to it). -/
structure ApiConfirmarPayload where
  id : Nat := 0
  relato : String := ""
  operador : String := ""
  vitimasAparentes : String := ""
  criancasOuIdosos : String := ""
  emAndamento : String := ""
  confirmado : String := ""
deriving Repr, DecidableEq

/-- Responses of `/api/confirmar`: 200 ok, 200 already_confirmed,
400 validation, 404 not found, 409 digest conflict. -/
inductive ApiConfirmarResult where
  | ok
  | okAlready (id : Nat)
  | errValidation
  | errNotFound (id : Nat)
  | errConflict (otherId : Nat)
deriving Repr, DecidableEq

/-- POST `/api/confirmar` (lines 1892-1975).  Validation first
(`ev_id <= 0 or not relato`); then the already-confirmed early return, the
digest-conflict check against the trimmed stored digest, and the confirm
UPDATE, which stores the caller-supplied `confirmado` value (defaulted to
`'SIM'` when absent/blank) and lazily attaches the digest computed from the
stored inline image when the row has none. -/
def apiConfirmar (hash : String → String) (db : DB) (p : ApiConfirmarPayload)
    (now : Nat) : DB × ApiConfirmarResult :=
  let relato := trim p.relato
  let operador := trim p.operador
  let va := if trim p.vitimasAparentes = "SIM" then "SIM" else ""
  let ci := if trim p.criancasOuIdosos = "SIM" then "SIM" else ""
  let ea := if trim p.emAndamento = "SIM" then "SIM" else ""
  let confirmado :=
    let c := trim (if p.confirmado = "" then CONFIRM_VALUE else p.confirmado)
    if c = "" then CONFIRM_VALUE else c
  if p.id = 0 ∨ relato = "" then (db, .errValidation)
  else
    match rowById db p.id with
    | none => (db, .errNotFound p.id)
    | some cur =>
      let confirmadoCur := trim cur.confirmado
      let shaCur := trim cur.sha256
      if confirmadoCur = CONFIRM_VALUE then (db, .okAlready p.id)
      else
        match (if shaCur ≠ "" then conflictOutroRegistro db shaCur p.id else none) with
        | some other => (db, .errConflict other.id)
        | none =>
          (updateEvento db p.id
            (confirmUpdate hash cur confirmado relato operador va ci ea now), .ok)

/-- Responses of `/api/desconfirmar`. -/
inductive ApiDesconfirmarResult where
  | ok
  | errValidation
deriving Repr, DecidableEq

/-- POST `/api/desconfirmar` (lines 1977-2005): clears the confirmation
columns of the row (an UPDATE matching no row still returns ok).  It runs
no DELETE on `evento_qualificacao` or `evento_tratamento`. -/
def apiDesconfirmar (db : DB) (evId : Nat) : DB × ApiDesconfirmarResult :=
  if evId = 0 then (db, .errValidation)
  else (updateEvento db evId clearConfirm, .ok)

/-- The POST form of `/confirmar`; `action` is the raw form value
(`confirmar` when absent), flags are compared to `"SIM"` untrimmed,
`qualificacoes` the parsed multi-select ids. -/
structure UiConfirmPayload where
  id : Nat := 0
  action : String := ""
  relato : String := ""
  operador : String := ""
  vitimasAparentes : String := ""
  criancasOuIdosos : String := ""
  emAndamento : String := ""
  qualificacoes : List Nat := []
deriving Repr, DecidableEq

/-- Responses of the `/confirmar` POST handler: the close-window pages for
success, already-confirmed and digest-conflict, and the plain 400/404
errors. -/
inductive UiResult where
  | closeOk
  | closeAlready
  | closeConflict (otherId : Nat)
  | errIdInvalid
  | errNotFound
  | errRelato
deriving Repr, DecidableEq

/-- The POST branch of `confirmar_ui` (lines 1675-1793).  Order of checks:
invalid id, row lookup (404), then — unless the action is `desconfirmar` —
already-confirmed and digest-conflict, then the action dispatch; the
`Relato é obrigatório` validation runs only inside the confirm branch.
The confirm branch stores `'SIM'`, lazily attaches a missing digest, then
replaces the qualification set, rederives treatment rows from the matrix
and refreshes the flattened columns.  The `desconfirmar` branch clears the
confirmation columns and deletes the qualification associations (but not
the treatment rows). -/
def confirmarUiPost (hash : String → String) (db : DB) (p : UiConfirmPayload)
    (now : Nat) : DB × UiResult :=
  let action := trim (if p.action = "" then "confirmar" else p.action)
  let relato := trim p.relato
  let operador := trim p.operador
  let va := if p.vitimasAparentes = "SIM" then "SIM" else ""
  let ci := if p.criancasOuIdosos = "SIM" then "SIM" else ""
  let ea := if p.emAndamento = "SIM" then "SIM" else ""
  if p.id = 0 then (db, .errIdInvalid)
  else
    match rowById db p.id with
    | none => (db, .errNotFound)
    | some cur =>
      let confirmadoCur := trim cur.confirmado
      let shaCur := trim cur.sha256
      if action ≠ "desconfirmar" ∧ confirmadoCur = CONFIRM_VALUE then
        (db, .closeAlready)
      else
        match (if action ≠ "desconfirmar" ∧ shaCur ≠ "" then
            conflictOutroRegistro db shaCur p.id else none) with
        | some other => (db, .closeConflict other.id)
        | none =>
          if action = "desconfirmar" then
            let db1 := updateEvento db p.id clearConfirm
            ({ db1 with
                eventoQualificacao :=
                  db1.eventoQualificacao.filter (fun r => r.1 ≠ p.id) },
              .closeOk)
          else if relato = "" then (db, .errRelato)
          else
            let db1 := updateEvento db p.id
              (confirmUpdate hash cur CONFIRM_VALUE relato operador va ci ea now)
            let db2 := salvarQualificacoesEvento db1 p.id p.qualificacoes
            let db3 := salvarTratamentoEvento db2 p.id p.qualificacoes now
            (refreshTratamentoFlat db3 p.id, .closeOk)

/-! ## Query-interface predicates (`buscar_eventos`, lines 548-652) -/

/-- The `confirmado = 'SIM'` filter arm of `buscar_eventos` (lines 614-616). -/
def filtroConfirmadoSim (e : Evento) : Bool := e.confirmado = CONFIRM_VALUE

/-- The `confirmado = 'NAO'` filter arm (lines 617-619):
`confirmado IS NULL OR confirmado = '' OR confirmado <> 'SIM'`. -/
def filtroConfirmadoNao (e : Evento) : Bool :=
  e.confirmado = "" || e.confirmado ≠ CONFIRM_VALUE

/-! ## Invariants -/

/-- Digest uniqueness under confirmation: rows sharing a non-empty digest
include at most one with `confirmado = 'SIM'`. -/
def digestConfirmUnique (db : DB) : Prop :=
  ∀ e1 ∈ db.eventos, ∀ e2 ∈ db.eventos,
    e1.sha256 ≠ "" → e1.sha256 = e2.sha256 →
    e1.confirmado = CONFIRM_VALUE → e2.confirmado = CONFIRM_VALUE →
    e1.id = e2.id

instance (db : DB) : Decidable (digestConfirmUnique db) := by
  unfold digestConfirmUnique; infer_instance

/-! ## Supporting lemmas -/

theorem trim_SIM : trim CONFIRM_VALUE = CONFIRM_VALUE := by decide

theorem length_insertEv (a : Evento) (l : List Evento) :
    (insertEv a l).length = l.length + 1 := by
  induction l with
  | nil => rfl
  | cons b bs ih =>
    simp only [insertEv]
    by_cases h : evLe a b
    · rw [if_pos h]; rfl
    · rw [if_neg h]; simp [ih]

theorem length_sortByTs (l : List Evento) : (sortByTs l).length = l.length := by
  induction l with
  | nil => rfl
  | cons a t ih =>
    show (insertEv a (sortByTs t)).length = t.length + 1
    rw [length_insertEv, ih]

theorem pruneLoopFuel_length {batch : Nat} (hb : 1 ≤ batch) :
    ∀ fuel toRemove rows, toRemove ≤ fuel → toRemove ≤ rows.length →
      (pruneLoopFuel batch fuel toRemove rows).length = rows.length - toRemove := by
  intro fuel
  induction fuel with
  | zero =>
    intro toRemove rows hf hr
    have h0 : toRemove = 0 := Nat.le_zero.mp hf
    subst h0
    simp [pruneLoopFuel]
  | succ n ih =>
    intro toRemove rows hf hr
    by_cases h0 : toRemove = 0
    · subst h0; simp [pruneLoopFuel]
    · simp only [pruneLoopFuel, deleteOldest]
      rw [if_neg h0]
      have hstep1 : 1 ≤ min batch toRemove := by omega
      have hstep2 : min (min batch toRemove) rows.length = min batch toRemove := by omega
      rw [hstep2, if_neg (by omega : ¬ min batch toRemove = 0)]
      have hlen : ((sortByTs rows).drop (min batch toRemove)).length
          = rows.length - min batch toRemove := by
        rw [List.length_drop, length_sortByTs]
      have hrec := ih (toRemove - min batch toRemove)
        ((sortByTs rows).drop (min batch toRemove)) (by omega) (by rw [hlen]; omega)
      rw [hrec, hlen]
      omega

theorem pruneLoopFuel_zero_batch :
    ∀ fuel toRemove rows, (pruneLoopFuel 0 fuel toRemove rows).length = rows.length := by
  intro fuel toRemove rows
  cases fuel with
  | zero => rfl
  | succ n =>
    by_cases h0 : toRemove = 0
    · subst h0; simp [pruneLoopFuel]
    · simp [pruneLoopFuel, deleteOldest, h0, length_sortByTs]

theorem pruneIfNeeded_noop {cfg : Config} {db : DB}
    (h : db.eventos.length ≤ cfg.hiRows) : pruneIfNeeded cfg db = db := by
  unfold pruneIfNeeded
  rw [if_pos h]

theorem campoGet_mergeEvento (c : Campo) (old base : Evento) (now : Nat) :
    campoGet c (mergeEvento old base now)
      = coal (campoGet c base) (campoGet c old) := by
  cases c <;> rfl

theorem find?_map_update (i : Nat) (f : Evento → Evento)
    (hf : ∀ e, (f e).id = e.id) :
    ∀ l : List Evento,
      (l.map (fun e => if e.id = i then f e else e)).find? (fun e => e.id = i)
        = (l.find? (fun e => e.id = i)).map f := by
  intro l
  induction l with
  | nil => rfl
  | cons a t ih =>
    by_cases ha : a.id = i
    · rw [List.map_cons, if_pos ha,
        List.find?_cons_of_pos _ (by simp [hf a, ha]),
        List.find?_cons_of_pos _ (by simp [ha])]
      rfl
    · rw [List.map_cons, if_neg ha,
        List.find?_cons_of_neg _ (by simp [ha]),
        List.find?_cons_of_neg _ (by simp [ha])]
      exact ih

theorem rowById_updateEvento (db : DB) (i : Nat) (f : Evento → Evento)
    (hf : ∀ e, (f e).id = e.id) :
    rowById (updateEvento db i f) i = (rowById db i).map f :=
  find?_map_update i f hf db.eventos

theorem find?_map_update_ne (i j : Nat) (f : Evento → Evento)
    (hf : ∀ e, (f e).id = e.id) (hne : j ≠ i) :
    ∀ l : List Evento,
      (l.map (fun e => if e.id = i then f e else e)).find? (fun e => e.id = j)
        = l.find? (fun e => e.id = j) := by
  intro l
  induction l with
  | nil => rfl
  | cons a t ih =>
    by_cases ha : a.id = i
    · rw [List.map_cons, if_pos ha,
        List.find?_cons_of_neg _ (by simp [hf a, ha]; exact fun h => hne h.symm),
        List.find?_cons_of_neg _ (by simp [ha]; exact fun h => hne h.symm)]
      exact ih
    · rw [List.map_cons, if_neg ha]
      by_cases haj : a.id = j
      · rw [List.find?_cons_of_pos _ (by simp [haj]),
          List.find?_cons_of_pos _ (by simp [haj])]
      · rw [List.find?_cons_of_neg _ (by simp [haj]),
          List.find?_cons_of_neg _ (by simp [haj])]
        exact ih

theorem rowById_updateEvento_ne (db : DB) (i j : Nat) (f : Evento → Evento)
    (hf : ∀ e, (f e).id = e.id) (hne : j ≠ i) :
    rowById (updateEvento db i f) j = rowById db j :=
  find?_map_update_ne i j f hf hne db.eventos

theorem length_updateEvento (db : DB) (i : Nat) (f : Evento → Evento) :
    (updateEvento db i f).eventos.length = db.eventos.length := by
  simp [updateEvento]

theorem find?_id_of_mem : ∀ {l : List Evento},
    l.Pairwise (fun a b => a.id ≠ b.id) →
    ∀ r ∈ l, l.find? (fun e => e.id = r.id) = some r := by
  intro l
  induction l with
  | nil => simp
  | cons a t ih =>
    intro hU r hr
    obtain ⟨ha, ht⟩ := List.pairwise_cons.mp hU
    rcases List.mem_cons.mp hr with h | h
    · rw [h]
      exact List.find?_cons_of_pos _ (by simp)
    · have hne : a.id ≠ r.id := ha r h
      rw [List.find?_cons_of_neg _ (by simp [hne]), ih ht r h]

theorem rowById_of_mem {db : DB} (hU : uniqueIds db) {r : Evento}
    (hr : r ∈ db.eventos) : rowById db r.id = some r :=
  find?_id_of_mem hU r hr

theorem rowByKeys_mem {cfg : Config} {db : DB} {base : Evento} {now : Nat}
    {r : Evento} (h : rowByKeys cfg db base now = some r) : r ∈ db.eventos := by
  unfold rowByKeys at h
  by_cases hj : base.jobId = ""
  · rw [if_pos hj] at h; cases h
  · rw [if_neg hj] at h
    cases hm1 : (if base.sha256 ≠ "" then
        maxById (db.eventos.filter
          (fun e => e.jobId = base.jobId && e.sha256 = base.sha256))
      else none) with
    | some m =>
      simp only [hm1] at h
      injection h with h
      subst h
      by_cases hs : base.sha256 ≠ ""
      · rw [if_pos hs] at hm1
        exact (List.mem_filter.mp (maxById_mem _ _ hm1)).1
      · rw [if_neg hs] at hm1; cases hm1
    | none =>
      simp only [hm1] at h
      cases hm2 : maxById (db.eventos.filter (fun e => e.jobId = base.jobId)) with
      | some m2 =>
        simp only [hm2] at h
        by_cases hw : (now : Int) - (m2.timestamp : Int) ≤ (cfg.updateWindowSec : Int)
        · rw [if_pos hw] at h
          injection h with h
          subst h
          exact (List.mem_filter.mp (maxById_mem _ _ hm2)).1
        · rw [if_neg hw] at h; cases h
      | none => simp only [hm2] at h; cases h

theorem foldl_max_init_le (l : List Evento) :
    ∀ acc, acc ≤ l.foldl (fun a x => max a x.id) acc := by
  induction l with
  | nil => simp
  | cons a t ih =>
    intro acc
    exact le_trans (Nat.le_max_left acc a.id) (ih (max acc a.id))

theorem mem_le_foldl_max {l : List Evento} :
    ∀ acc, ∀ e ∈ l, e.id ≤ l.foldl (fun a x => max a x.id) acc := by
  induction l with
  | nil => simp
  | cons a t ih =>
    intro acc e he
    rcases List.mem_cons.mp he with h | h
    · rw [h]
      exact le_trans (Nat.le_max_right acc a.id) (foldl_max_init_le t (max acc a.id))
    · exact ih _ e h

theorem rowById_nextId (db : DB) : rowById db (nextId db) = none := by
  unfold rowById
  rw [List.find?_eq_none]
  intro e he
  have := mem_le_foldl_max 0 e he
  simp only [nextId] at *
  simp
  omega


/-- The secondary-analysis endpoint on a matched row is exactly the
documented UPDATE (when the state is small enough that the trailing sweep
is a no-op). -/
theorem respostaIa_merge_row {cfg : Config} {db : DB} {pr : RespostaPayload}
    {now : Nat} {rr : Evento} (hjob : trim pr.jobId ≠ "")
    (hmax : maxById (db.eventos.filter (fun e => e.jobId = trim pr.jobId)) = some rr)
    (hsize : db.eventos.length ≤ cfg.hiRows) :
    receberRespostaIa cfg db pr now
      = updateEvento db rr.id (fun old =>
        { old with
          llavaPt := trim pr.llavaPt
          durLlavaMs := trim pr.durLlavaMs
          localTxt := coal (trim pr.localTxt) old.localTxt
          cameraName := coal (trim pr.cameraName) old.cameraName
          sha256 := if old.sha256 ≠ "" then old.sha256 else trim pr.sha256
          fileName := if old.fileName ≠ "" then old.fileName else trim pr.fileName }) := by
  simp only [receberRespostaIa, if_pos hjob, hmax]
  exact pruneIfNeeded_noop (by rw [length_updateEvento]; exact hsize)

/-- The matched row after a secondary-analysis merge. -/
theorem respostaIa_merge_rowById {cfg : Config} {db : DB} {pr : RespostaPayload}
    {now : Nat} {rr : Evento} (hU : uniqueIds db) (hjob : trim pr.jobId ≠ "")
    (hmax : maxById (db.eventos.filter (fun e => e.jobId = trim pr.jobId)) = some rr)
    (hsize : db.eventos.length ≤ cfg.hiRows) :
    rowById (receberRespostaIa cfg db pr now) rr.id
      = some { rr with
          llavaPt := trim pr.llavaPt
          durLlavaMs := trim pr.durLlavaMs
          localTxt := coal (trim pr.localTxt) rr.localTxt
          cameraName := coal (trim pr.cameraName) rr.cameraName
          sha256 := if rr.sha256 ≠ "" then rr.sha256 else trim pr.sha256
          fileName := if rr.fileName ≠ "" then rr.fileName else trim pr.fileName } := by
  rw [respostaIa_merge_row hjob hmax hsize]
  rw [rowById_updateEvento db rr.id (fun old =>
      { old with
        llavaPt := trim pr.llavaPt
        durLlavaMs := trim pr.durLlavaMs
        localTxt := coal (trim pr.localTxt) old.localTxt
        cameraName := coal (trim pr.cameraName) old.cameraName
        sha256 := if old.sha256 ≠ "" then old.sha256 else trim pr.sha256
        fileName := if old.fileName ≠ "" then old.fileName else trim pr.fileName })
    (fun e => rfl)]
  rw [rowById_of_mem hU (List.mem_filter.mp (maxById_mem _ _ hmax)).1]
  rfl

/-- The ingestion endpoint on a resolver match: returns the matched id and
stores the field-by-field merge (small state, sweep a no-op). -/
theorem receberEvento_merge_parts {hash : String → String} {cfg : Config}
    {db : DB} {p : EvPayload} {now : Nat} {r : Evento} (hU : uniqueIds db)
    (hsome : rowByKeys cfg db (mkBaseRow hash p now) now = some r)
    (hsize : db.eventos.length ≤ cfg.hiRows) :
    (receberEvento hash cfg db p now).2 = r.id
    ∧ rowById (receberEvento hash cfg db p now).1 r.id
        = some (mergeEvento r (mkBaseRow hash p now) now) := by
  have hcore1 : (receberEventoCore hash cfg db p now).1
      = updateEvento db r.id (fun old => mergeEvento old (mkBaseRow hash p now) now) := by
    simp only [receberEventoCore, hsome]
  have hcore2 : (receberEventoCore hash cfg db p now).2 = r.id := by
    simp only [receberEventoCore, hsome]
  refine ⟨hcore2, ?_⟩
  show rowById (pruneIfNeeded cfg (receberEventoCore hash cfg db p now).1) r.id = _
  rw [hcore1]
  rw [pruneIfNeeded_noop (by rw [length_updateEvento]; exact hsize)]
  rw [rowById_updateEvento db r.id
    (fun old => mergeEvento old (mkBaseRow hash p now) now) (fun e => rfl)]
  rw [rowById_of_mem hU (rowByKeys_mem hsome)]
  rfl

/-- The ingestion endpoint on no resolver match: creates a fresh incident
(small state, sweep a no-op). -/
theorem receberEvento_create_parts {hash : String → String} {cfg : Config}
    {db : DB} {p : EvPayload} {now : Nat}
    (hnone : rowByKeys cfg db (mkBaseRow hash p now) now = none)
    (hsize : db.eventos.length + 1 ≤ cfg.hiRows) :
    (receberEvento hash cfg db p now).2 = nextId db
    ∧ rowById (receberEvento hash cfg db p now).1 (nextId db)
        = some { mkBaseRow hash p now with id := nextId db } := by
  have hcore1 : (receberEventoCore hash cfg db p now).1
      = (insertEvento db (mkBaseRow hash p now)).1 := by
    simp only [receberEventoCore, hnone]
  have hcore2 : (receberEventoCore hash cfg db p now).2
      = (insertEvento db (mkBaseRow hash p now)).2 := by
    simp only [receberEventoCore, hnone]
  constructor
  · show (receberEventoCore hash cfg db p now).2 = nextId db
    rw [hcore2]
    rfl
  · show rowById (pruneIfNeeded cfg (receberEventoCore hash cfg db p now).1) (nextId db) = _
    rw [hcore1]
    rw [pruneIfNeeded_noop (by simp only [insertEvento, List.length_cons]; omega)]
    unfold insertEvento rowById
    exact List.find?_cons_of_pos _ (by simp)

/-! ## Fixtures for concrete witnesses and counterexamples -/

/-- A concrete stand-in for the abstracted SHA-1 core: every decodable
image hashes to `"d"`. -/
def hashD : String → String := fun _ => "d"

/-- A small test configuration (thresholds high enough that small states
never trigger the retention sweep). -/
def cfgS : Config :=
  { updateWindowSec := 15, pruneBatch := 50, maxRows := 100, hiRows := 80, loRows := 70 }

/-- The empty database. -/
def dbEmpty : DB := ⟨[], [], [], [], [], [], [], []⟩

/-! ## C4 — retention convergence -/

/-- C4: Retention convergence and termination.  Whenever the row-count
strategy starts with the incident count strictly above the high-water mark
it evicts oldest rows in batches of at most `pruneBatch` and ends at the
low-water target (in particular at or below the low-water mark); when the
batch size is zero a batch removes zero rows and the loop stops with the
count unchanged; at or below the high-water mark the sweep is a no-op.
The remaining to-remove quantity strictly decreases on every continuing
iteration — this is what `pruneLoopFuel_length` runs its induction on. -/
theorem retention_convergence (cfg : Config) (db : DB) :
    (db.eventos.length ≤ cfg.hiRows → pruneIfNeeded cfg db = db)
    ∧ (cfg.hiRows < db.eventos.length → 1 ≤ cfg.pruneBatch →
        (pruneIfNeeded cfg db).eventos.length ≤ cfg.loRows)
    ∧ (cfg.hiRows < db.eventos.length → cfg.pruneBatch = 0 →
        (pruneIfNeeded cfg db).eventos.length = db.eventos.length) := by
  refine ⟨fun h => pruneIfNeeded_noop h, fun hgt hb => ?_, fun hgt hb0 => ?_⟩
  · unfold pruneIfNeeded
    rw [if_neg (by omega)]
    show (pruneLoop cfg.pruneBatch (db.eventos.length - cfg.loRows)
        db.eventos).length ≤ cfg.loRows
    unfold pruneLoop
    rw [pruneLoopFuel_length hb _ _ _ (le_refl _) (by omega)]
    omega
  · unfold pruneIfNeeded
    rw [if_neg (by omega)]
    show (pruneLoop cfg.pruneBatch (db.eventos.length - cfg.loRows)
        db.eventos).length = db.eventos.length
    unfold pruneLoop
    rw [hb0]
    exact pruneLoopFuel_zero_batch _ _ _

/-- Retention fixture: tight thresholds and five rows. -/
def cfgC4 : Config :=
  { updateWindowSec := 15, pruneBatch := 2, maxRows := 5, hiRows := 3, loRows := 2 }

/-- Five incidents with increasing timestamps. -/
def dbC4 : DB :=
  ⟨[{ Evento.blank with id := 1, timestamp := 101 },
    { Evento.blank with id := 2, timestamp := 102 },
    { Evento.blank with id := 3, timestamp := 103 },
    { Evento.blank with id := 4, timestamp := 104 },
    { Evento.blank with id := 5, timestamp := 105 }], [], [], [], [], [], [], []⟩

/-- C4 witness: five rows against a high-water mark of three converge to
the low-water target of two. -/
theorem retention_convergence_witness :
    (cfgC4.hiRows < dbC4.eventos.length ∧ 1 ≤ cfgC4.pruneBatch)
    ∧ (pruneIfNeeded cfgC4 dbC4).eventos.length ≤ cfgC4.loRows :=
  ⟨by decide, (retention_convergence cfgC4 dbC4).2.1 (by decide) (by decide)⟩

/-! ## C9 — retention failures and the triggering write -/

/-- C9 (amended): the retention sweep runs on the request's connection
inside the same `engine.begin()` transaction as the merge/create, with no
exception handling, so a storage error at the start of the sweep is NOT
swallowed: the transaction rolls back — undoing the just-performed
merge/create — and the endpoint reports a server error instead of success.
Without a sweep error the create commits and the endpoint returns the new
id. -/
theorem retention_error_fails_write (hash : String → String) (cfg : Config)
    (db : DB) (p : EvPayload) (now : Nat)
    (hnew : rowByKeys cfg db (mkBaseRow hash p now) now = none)
    (hsize : db.eventos.length + 1 ≤ cfg.hiRows) :
    receberEventoTx hash cfg db p now true = (db, none)
    ∧ (receberEventoTx hash cfg db p now false).2 = some (nextId db)
    ∧ rowById (receberEventoTx hash cfg db p now false).1 (nextId db)
        = some { mkBaseRow hash p now with id := nextId db }
    ∧ rowById db (nextId db) = none := by
  have htx : receberEventoTx hash cfg db p now false
      = (pruneIfNeeded cfg (receberEventoCore hash cfg db p now).1,
         some (receberEventoCore hash cfg db p now).2) := rfl
  have hcore : receberEventoCore hash cfg db p now
      = insertEvento db (mkBaseRow hash p now) := by
    simp only [receberEventoCore, hnew]
  refine ⟨rfl, ?_, ?_, rowById_nextId db⟩
  · rw [htx, hcore]
    rfl
  · rw [htx, hcore]
    have hlen : (insertEvento db (mkBaseRow hash p now)).1.eventos.length ≤ cfg.hiRows := by
      simp only [insertEvento, List.length_cons]
      omega
    rw [pruneIfNeeded_noop hlen]
    unfold insertEvento rowById
    exact List.find?_cons_of_pos _ (by simp)

/-- Payload creating a fresh incident (used by the C9 scenario). -/
def pC9ev : EvPayload := { jobId := "J1", objeto := "p" }

/-- C9 witness: on the empty store, a sweep error turns the create into a
no-op plus a server error. -/
theorem retention_error_fails_write_witness :
    (rowByKeys cfgS dbEmpty (mkBaseRow hashD pC9ev 5) 5 = none
      ∧ dbEmpty.eventos.length + 1 ≤ cfgS.hiRows)
    ∧ receberEventoTx hashD cfgS dbEmpty pC9ev 5 true = (dbEmpty, none) :=
  ⟨⟨by decide, by decide⟩,
   (retention_error_fails_write hashD cfgS dbEmpty pC9ev 5 (by decide) (by decide)).1⟩

/-- C9 counterexample: the same ingestion request succeeds and stores the
incident when the sweep runs clean, but with a storage error in the sweep
the merge/create is rolled back (the row is gone) and the endpoint reports
failure — the claim promised the sweep error would be logged, the write
kept, and success returned. -/
theorem retention_error_counterexample :
    (receberEventoTx hashD cfgS dbEmpty pC9ev 5 false).2 = some 1
    ∧ ((rowById (receberEventoTx hashD cfgS dbEmpty pC9ev 5 false).1 1).map
        (fun e => e.objeto)) = some "p"
    ∧ (receberEventoTx hashD cfgS dbEmpty pC9ev 5 true).2 = none
    ∧ (receberEventoTx hashD cfgS dbEmpty pC9ev 5 true).1 = dbEmpty := by decide

/-! ## C8 — timestamp discipline -/

/-- C8 (amended): each incident has a single `timestamp` column, not a
creation/last-update pair.  It is set to now at creation; every accepted
merge through the ingestion endpoint overwrites it with the current time
(so the creation instant is not preserved anywhere in the row); merges
through the secondary-analysis endpoint leave it unchanged (they do not
advance it). -/
theorem timestamp_discipline_amended (hash : String → String) (cfg : Config)
    (db : DB) (p : EvPayload) (pr : RespostaPayload) (now : Nat)
    (hU : uniqueIds db) :
    (rowByKeys cfg db (mkBaseRow hash p now) now = none →
      (rowById (receberEventoCore hash cfg db p now).1
          (receberEventoCore hash cfg db p now).2).map (fun e => e.timestamp)
        = some now)
    ∧ (∀ r, rowByKeys cfg db (mkBaseRow hash p now) now = some r →
        (rowById (receberEventoCore hash cfg db p now).1 r.id).map
            (fun e => e.timestamp)
          = some now)
    ∧ (∀ rr, trim pr.jobId ≠ "" →
        maxById (db.eventos.filter (fun e => e.jobId = trim pr.jobId)) = some rr →
        db.eventos.length ≤ cfg.hiRows →
        (rowById (receberRespostaIa cfg db pr now) rr.id).map (fun e => e.timestamp)
          = some rr.timestamp) := by
  refine ⟨fun hnone => ?_, fun r hsome => ?_, fun rr hjob hmax hsize => ?_⟩
  · have hcore : receberEventoCore hash cfg db p now
        = insertEvento db (mkBaseRow hash p now) := by
      simp only [receberEventoCore, hnone]
    rw [hcore]
    unfold insertEvento rowById
    rw [List.find?_cons_of_pos _ (by simp)]
    rfl
  · have hcore1 : (receberEventoCore hash cfg db p now).1
        = updateEvento db r.id
            (fun old => mergeEvento old (mkBaseRow hash p now) now) := by
      simp only [receberEventoCore, hsome]
    have hcore2 : (receberEventoCore hash cfg db p now).2 = r.id := by
      simp only [receberEventoCore, hsome]
    rw [hcore1]
    rw [rowById_updateEvento db r.id
      (fun old => mergeEvento old (mkBaseRow hash p now) now) (fun e => rfl)]
    rw [rowById_of_mem hU (rowByKeys_mem hsome)]
    rfl
  · rw [respostaIa_merge_rowById hU hjob hmax hsize]
    rfl

/-- Detector-stage fragment for job `J1` (C8 scenario). -/
def pC8a : EvPayload := { jobId := "J1", objeto := "p" }

/-- Later ingestion fragment for the same job. -/
def pC8b : EvPayload := { jobId := "J1", llavaPt := "x" }

/-- Analysis fragment for the same job. -/
def prC8 : RespostaPayload := { jobId := "J1", llavaPt := "y" }

/-- State after creating the incident at time 1000. -/
def stC8a : DB := (receberEvento hashD cfgS dbEmpty pC8a 1000).1

/-- State after the ingestion merge at time 1005. -/
def stC8b : DB := (receberEvento hashD cfgS stC8a pC8b 1005).1

/-- State after the secondary-analysis merge at time 1010. -/
def stC8c : DB := receberRespostaIa cfgS stC8b prC8 1010

/-- The incident row as stored after creation. -/
def rowC8 : Evento :=
  { Evento.blank with
    id := 1, timestamp := 1000, status := "ok", objeto := "p",
    identificador := "desconhecido", jobId := "J1" }

/-- C8 counterexample: the row is created with timestamp 1000, the ingestion
merge at 1005 overwrites it (the creation timestamp is changed, refuting
"assigned exactly once and never changed"), and the accepted
secondary-analysis merge at 1010 leaves it at 1005 (refuting "a last-update
timestamp is advanced by every accepted merge"). -/
theorem timestamp_discipline_counterexample :
    ((rowById stC8a 1).map (fun e => e.timestamp) = some 1000)
    ∧ ((rowById stC8b 1).map (fun e => e.timestamp) = some 1005)
    ∧ (1005 ≠ 1000)
    ∧ ((rowById stC8c 1).map (fun e => (e.timestamp, e.llavaPt)) = some (1005, "y"))
    ∧ (1005 ≠ 1010) := by decide

/-- C8 witness: the amended characterisation applied to the concrete merge
scenario — the ingestion merge stamps the row with the request time. -/
theorem timestamp_discipline_witness :
    (uniqueIds stC8a ∧ rowByKeys cfgS stC8a (mkBaseRow hashD pC8b 1005) 1005 = some rowC8)
    ∧ (rowById (receberEventoCore hashD cfgS stC8a pC8b 1005).1 rowC8.id).map
        (fun e => e.timestamp) = some 1005 :=
  ⟨⟨by decide, by decide⟩,
   (timestamp_discipline_amended hashD cfgS stC8a pC8b prC8 1005 (by decide)).2.1
     rowC8 (by decide)⟩

/-! ## C6 — unconfirm -/

/-- C6 (amended): both unconfirm paths clear the confirmation flag, report,
operator, confirmation timestamp, treatment-flatten columns and
supplemental flags of the row; the browser-UI path additionally deletes
the incident's qualification-association rows, but the JSON endpoint
leaves them in place, and neither path deletes the derived
treatment-association rows. -/
theorem unconfirm_clears_amended (hash : String → String) (db : DB) (i : Nat)
    (cur : Evento) (pu : UiConfirmPayload) (now : Nat)
    (hrow : rowById db i = some cur) (hi : i ≠ 0) :
    ((apiDesconfirmar db i).2 = .ok
      ∧ (∃ r2, rowById (apiDesconfirmar db i).1 i = some r2
          ∧ r2.confirmado = "" ∧ r2.relatoOperador = "" ∧ r2.confirmadoPor = ""
          ∧ r2.confirmadoEm = none ∧ r2.tratamentoStatus = ""
          ∧ r2.tratamentoResumo = "" ∧ r2.tratamentoEm = none
          ∧ r2.vitimasAparentes = "" ∧ r2.criancasOuIdosos = ""
          ∧ r2.emAndamento = "")
      ∧ (apiDesconfirmar db i).1.eventoQualificacao = db.eventoQualificacao
      ∧ (apiDesconfirmar db i).1.eventoTratamento = db.eventoTratamento)
    ∧ (pu.id = i →
        trim (if pu.action = "" then "confirmar" else pu.action) = "desconfirmar" →
        (confirmarUiPost hash db pu now).2 = .closeOk
        ∧ (∃ r2, rowById (confirmarUiPost hash db pu now).1 i = some r2
            ∧ r2.confirmado = "" ∧ r2.relatoOperador = "" ∧ r2.confirmadoPor = ""
            ∧ r2.confirmadoEm = none ∧ r2.tratamentoStatus = ""
            ∧ r2.tratamentoResumo = "" ∧ r2.tratamentoEm = none
            ∧ r2.vitimasAparentes = "" ∧ r2.criancasOuIdosos = ""
            ∧ r2.emAndamento = "")
        ∧ (confirmarUiPost hash db pu now).1.eventoQualificacao
            = db.eventoQualificacao.filter (fun rq => rq.1 ≠ i)
        ∧ (confirmarUiPost hash db pu now).1.eventoTratamento
            = db.eventoTratamento) := by
  have hapi : apiDesconfirmar db i = (updateEvento db i clearConfirm, .ok) := by
    unfold apiDesconfirmar
    rw [if_neg hi]
  constructor
  · rw [hapi]
    refine ⟨rfl, ⟨clearConfirm cur, ?_, rfl, rfl, rfl, rfl, rfl, rfl, rfl, rfl, rfl, rfl⟩, rfl, rfl⟩
    show rowById (updateEvento db i clearConfirm) i = some (clearConfirm cur)
    rw [rowById_updateEvento db i clearConfirm (fun e => rfl), hrow]
    rfl
  · intro hpid haction
    have hui : confirmarUiPost hash db pu now
        = ({ updateEvento db i clearConfirm with
              eventoQualificacao :=
                (updateEvento db i clearConfirm).eventoQualificacao.filter
                  (fun rq => rq.1 ≠ i) },
           .closeOk) := by
      simp only [confirmarUiPost]
      rw [hpid, if_neg hi]
      simp only [hrow, haction]
      rw [if_neg (by simp)]
      rw [if_neg (by simp)]
      simp
    rw [hui]
    refine ⟨rfl, ⟨clearConfirm cur, ?_, rfl, rfl, rfl, rfl, rfl, rfl, rfl, rfl, rfl, rfl⟩, rfl, rfl⟩
    show rowById (updateEvento db i clearConfirm) i = some (clearConfirm cur)
    rw [rowById_updateEvento db i clearConfirm (fun e => rfl), hrow]
    rfl

/-- A confirmed incident with one qualification association and one derived
treatment row (C6/C7/C3 scenarios). -/
def rowC6 : Evento :=
  { Evento.blank with
    id := 1, sha256 := "s1", confirmado := "SIM", relatoOperador := "r",
    confirmadoPor := "op", confirmadoEm := some 10, tratamentoStatus := "PENDENTE" }

/-- Database holding `rowC6`, its qualification tag and treatment row. -/
def dbC6 : DB :=
  ⟨[rowC6], [(1, 3)], [⟨1, 3, 1, 1, 1, 1, 10⟩],
   [(3, "Roubo")], [(1, "Alta")], [(1, "Auto")], [(1, "PM")], [⟨3, 1, 1, 1, 1⟩]⟩

/-- C6 counterexample: unconfirming incident 1 through the JSON endpoint
returns OK but leaves its qualification-association row `(1, 3)` in place,
and neither endpoint deletes the derived treatment-association row. -/
theorem unconfirm_clears_counterexample :
    (apiDesconfirmar dbC6 1).2 = .ok
    ∧ (apiDesconfirmar dbC6 1).1.eventoQualificacao = [(1, 3)]
    ∧ (apiDesconfirmar dbC6 1).1.eventoTratamento ≠ []
    ∧ (confirmarUiPost hashD dbC6 { id := 1, action := "desconfirmar" } 20).1.eventoTratamento
        ≠ [] := by decide

/-- C6 witness: the amended statement applied to the concrete store — the
JSON unconfirm clears the columns yet leaves the qualification table
untouched. -/
theorem unconfirm_clears_witness :
    (rowById dbC6 1 = some rowC6 ∧ (1 : Nat) ≠ 0)
    ∧ (apiDesconfirmar dbC6 1).1.eventoQualificacao = dbC6.eventoQualificacao :=
  ⟨⟨by decide, by decide⟩,
   (unconfirm_clears_amended hashD dbC6 1 rowC6
     { id := 1, action := "desconfirmar" } 20 (by decide) (by decide)).1.2.2.1⟩

/-! ## C7 — confirmation validation -/

/-- C7 (amended): a confirm request with an empty (trimmed) report writes
nothing on either endpoint.  The JSON endpoint always rejects it with the
validation error; the browser UI checks not-found, already-confirmed and
digest-conflict first, so it reports the validation error exactly when the
target exists, is not already confirmed and has no conflicting digest —
on an already-confirmed row it returns the idempotent success page
instead (still writing nothing). -/
theorem confirm_validation_amended (hash : String → String) (db : DB)
    (p : ApiConfirmarPayload) (pu : UiConfirmPayload) (now : Nat) :
    (trim p.relato = "" → apiConfirmar hash db p now = (db, .errValidation))
    ∧ (trim pu.relato = "" →
        trim (if pu.action = "" then "confirmar" else pu.action) ≠ "desconfirmar" →
        (confirmarUiPost hash db pu now).1 = db)
    ∧ (trim pu.relato = "" →
        trim (if pu.action = "" then "confirmar" else pu.action) ≠ "desconfirmar" →
        pu.id ≠ 0 →
        ∀ cur, rowById db pu.id = some cur →
          trim cur.confirmado ≠ CONFIRM_VALUE →
          (trim cur.sha256 ≠ "" → conflictOutroRegistro db (trim cur.sha256) pu.id = none) →
          (confirmarUiPost hash db pu now).2 = .errRelato) := by
  refine ⟨fun hrel => ?_, fun hrel haction => ?_, fun hrel haction h0 cur hrow hconf hcf => ?_⟩
  · unfold apiConfirmar
    rw [if_pos (Or.inr hrel)]
  · simp only [confirmarUiPost]
    by_cases h0 : pu.id = 0
    · rw [if_pos h0]
    · rw [if_neg h0]
      cases hrow : rowById db pu.id with
      | none => simp only [hrow]
      | some cur =>
        simp only [hrow]
        by_cases halready :
            trim (if pu.action = "" then "confirmar" else pu.action) ≠ "desconfirmar"
              ∧ trim cur.confirmado = CONFIRM_VALUE
        · rw [if_pos halready]
        · rw [if_neg halready]
          cases hcf : (if trim (if pu.action = "" then "confirmar" else pu.action)
                ≠ "desconfirmar" ∧ trim cur.sha256 ≠ "" then
              conflictOutroRegistro db (trim cur.sha256) pu.id else none) with
          | some other => simp only [hcf]
          | none =>
            simp only [hcf]
            rw [if_neg (fun h => haction h), if_pos hrel]
  · simp only [confirmarUiPost]
    rw [if_neg h0]
    simp only [hrow]
    rw [if_neg (fun h => hconf h.2)]
    have hnone : (if trim (if pu.action = "" then "confirmar" else pu.action)
          ≠ "desconfirmar" ∧ trim cur.sha256 ≠ "" then
        conflictOutroRegistro db (trim cur.sha256) pu.id else none) = none := by
      by_cases hsha : trim cur.sha256 ≠ ""
      · rw [if_pos ⟨haction, hsha⟩]
        exact hcf hsha
      · rw [if_neg (fun h => hsha h.2)]
    simp only [hnone]
    rw [if_neg (fun h => haction h), if_pos hrel]

/-- C7 counterexample: a browser-UI confirm request with an empty report on
an already-confirmed row returns the idempotent success page rather than
failing with the validation error (though it still writes nothing). -/
theorem confirm_validation_counterexample :
    trim ({ id := 1 } : UiConfirmPayload).relato = ""
    ∧ (confirmarUiPost hashD dbC6 { id := 1 } 20).2 = .closeAlready
    ∧ (confirmarUiPost hashD dbC6 { id := 1 } 20).1 = dbC6
    ∧ UiResult.closeAlready ≠ UiResult.errRelato := by decide

/-- C7 witness: the JSON endpoint rejects an empty report outright, writing
nothing. -/
theorem confirm_validation_witness :
    trim ({ id := 1, relato := " " } : ApiConfirmarPayload).relato = ""
    ∧ apiConfirmar hashD dbC6 { id := 1, relato := " " } 30 = (dbC6, .errValidation) :=
  ⟨by decide,
   (confirm_validation_amended hashD dbC6 { id := 1, relato := " " }
     { id := 1 } 30).1 (by decide)⟩

/-! ## C3 — idempotent re-confirmation -/

/-- C3 (amended): confirming an already-confirmed incident again returns
the idempotent success and changes nothing at all — incident row,
qualification associations, treatment rows — for any operator,
qualification list and flags; on the JSON endpoint this additionally
requires the report to pass validation (a non-empty trimmed report and a
positive id are checked before the already-confirmed test), while the
browser UI returns the idempotent success for any report. -/
theorem reconfirm_idempotent_amended (hash : String → String) (db : DB)
    (i : Nat) (cur : Evento) (p : ApiConfirmarPayload) (pu : UiConfirmPayload)
    (now : Nat) (hrow : rowById db i = some cur)
    (hconf : cur.confirmado = CONFIRM_VALUE) (hi : i ≠ 0) :
    (p.id = i → trim p.relato ≠ "" →
      apiConfirmar hash db p now = (db, .okAlready i))
    ∧ (pu.id = i →
        trim (if pu.action = "" then "confirmar" else pu.action) ≠ "desconfirmar" →
        confirmarUiPost hash db pu now = (db, .closeAlready)) := by
  have hsim : trim cur.confirmado = CONFIRM_VALUE := by rw [hconf]; exact trim_SIM
  constructor
  · intro hpid hrel
    unfold apiConfirmar
    rw [hpid]
    rw [if_neg (by push_neg; exact ⟨hi, hrel⟩)]
    simp only [hrow]
    rw [if_pos hsim]
  · intro hpid haction
    simp only [confirmarUiPost]
    rw [hpid, if_neg hi]
    simp only [hrow]
    rw [if_pos ⟨haction, hsim⟩]

/-- C3 counterexample: re-confirming the already-confirmed incident through
the JSON endpoint with an empty report is rejected with the validation
error, not the success the claim promises for "any report". -/
theorem reconfirm_idempotent_counterexample :
    ((rowById dbC6 1).map (fun e => e.confirmado) = some CONFIRM_VALUE)
    ∧ (apiConfirmar hashD dbC6 { id := 1, relato := "" } 30).2 = .errValidation
    ∧ ApiConfirmarResult.errValidation ≠ ApiConfirmarResult.ok
    ∧ ApiConfirmarResult.errValidation ≠ ApiConfirmarResult.okAlready 1 := by decide

/-- C3 witness: a valid re-confirmation of the confirmed incident returns
the idempotent success and leaves the database exactly as it was. -/
theorem reconfirm_idempotent_witness :
    (rowById dbC6 1 = some rowC6 ∧ rowC6.confirmado = CONFIRM_VALUE ∧ (1 : Nat) ≠ 0)
    ∧ apiConfirmar hashD dbC6 { id := 1, relato := "novo relato" } 30
        = (dbC6, .okAlready 1) :=
  ⟨⟨by decide, by decide, by decide⟩,
   (reconfirm_idempotent_amended hashD dbC6 1 rowC6
     { id := 1, relato := "novo relato" } { id := 1 } 30
     (by decide) (by decide) (by decide)).1 rfl (by decide)⟩

/-! ## C1 — merge never erases -/

/-- C1 (amended): the ingestion endpoint's merge applies the
merge-without-erasure rule to every `base_row` column: a field for which the
normalized fragment carries `''` keeps the stored value, and a non-empty
fragment value replaces it; columns outside `base_row` (confirmation data,
`dur_llava_ms`) are untouched.  The secondary-analysis endpoint deviates:
it overwrites `llava_pt` and `dur_llava_ms` unconditionally (an empty
fragment value erases the stored text), applies the rule only to `local`
and `camera_name`, and for `sha256`/`file_name` keeps the stored value even
against a non-empty fragment value (the fragment only fills empty fields). -/
theorem merge_never_erases_amended (hash : String → String) (cfg : Config)
    (db : DB) (p : EvPayload) (pr : RespostaPayload) (now : Nat)
    (hU : uniqueIds db) (hsize : db.eventos.length ≤ cfg.hiRows) :
    (∀ r, rowByKeys cfg db (mkBaseRow hash p now) now = some r →
      (receberEvento hash cfg db p now).2 = r.id
      ∧ (∀ c : Campo,
          (rowById (receberEvento hash cfg db p now).1 r.id).map (campoGet c)
            = some (if campoGet c (mkBaseRow hash p now) = ""
                    then campoGet c r
                    else campoGet c (mkBaseRow hash p now)))
      ∧ (rowById (receberEvento hash cfg db p now).1 r.id).map
            (fun e => (e.confirmado, e.relatoOperador, e.confirmadoPor,
              e.confirmadoEm, e.durLlavaMs))
          = some (r.confirmado, r.relatoOperador, r.confirmadoPor,
              r.confirmadoEm, r.durLlavaMs))
    ∧ (∀ rr, trim pr.jobId ≠ "" →
        maxById (db.eventos.filter (fun e => e.jobId = trim pr.jobId)) = some rr →
        rowById (receberRespostaIa cfg db pr now) rr.id
          = some { rr with
              llavaPt := trim pr.llavaPt
              durLlavaMs := trim pr.durLlavaMs
              localTxt := coal (trim pr.localTxt) rr.localTxt
              cameraName := coal (trim pr.cameraName) rr.cameraName
              sha256 := if rr.sha256 ≠ "" then rr.sha256 else trim pr.sha256
              fileName := if rr.fileName ≠ "" then rr.fileName else trim pr.fileName }) := by
  constructor
  · intro r hsome
    obtain ⟨hid, hrow⟩ := receberEvento_merge_parts hU hsome hsize
    refine ⟨hid, fun c => ?_, ?_⟩
    · rw [hrow]
      show some (campoGet c (mergeEvento r (mkBaseRow hash p now) now)) = _
      rw [campoGet_mergeEvento]
      rfl
    · rw [hrow]
      rfl
  · intro rr hjob hmax
    exact respostaIa_merge_rowById hU hjob hmax hsize

/-- An incident with stored analysis text and a stored digest. -/
def rowC1 : Evento :=
  { Evento.blank with
    id := 1, timestamp := 100, jobId := "J",
    llavaPt := "prior analysis", sha256 := "OLD" }

/-- Database holding `rowC1`. -/
def dbC1 : DB := ⟨[rowC1], [], [], [], [], [], [], []⟩

/-- Secondary-analysis fragment with an empty analysis text and a new
digest for job `J`. -/
def prC1 : RespostaPayload := { jobId := "J", llavaPt := "", sha256 := "NEW" }

/-- Ingestion fragment for job `J` carrying no analysis text. -/
def pC1w : EvPayload := { jobId := "J", objeto := "obj2" }

/-- C1 counterexample: the secondary-analysis endpoint matched to incident 1
erases the stored non-empty `llava_pt` with the fragment's empty value, and
discards the fragment's non-empty digest `NEW` in favour of the stored
`OLD` — both directions of the claimed field rule fail there. -/
theorem merge_never_erases_counterexample :
    ((rowById dbC1 1).map (fun e => (e.llavaPt, e.sha256))
      = some ("prior analysis", "OLD"))
    ∧ ((rowById (receberRespostaIa cfgS dbC1 prC1 2000) 1).map
        (fun e => (e.llavaPt, e.sha256)) = some ("", "OLD"))
    ∧ ("prior analysis" : String) ≠ "" ∧ ("NEW" : String) ≠ ""
    ∧ ("OLD" : String) ≠ "NEW" := by decide

/-- C1 witness: through the ingestion endpoint the rule does hold — a
fragment with no analysis text merged into incident 1 keeps the stored
`llava_pt`. -/
theorem merge_never_erases_witness :
    (uniqueIds dbC1
      ∧ rowByKeys cfgS dbC1 (mkBaseRow hashD pC1w 110) 110 = some rowC1
      ∧ dbC1.eventos.length ≤ cfgS.hiRows)
    ∧ (rowById (receberEvento hashD cfgS dbC1 pC1w 110).1 rowC1.id).map
        (campoGet Campo.llavaPt) = some "prior analysis" := by
  refine ⟨⟨by decide, by decide, by decide⟩, ?_⟩
  have h := (((merge_never_erases_amended hashD cfgS dbC1 pC1w prC1 110
    (by decide) (by decide)).1 rowC1 (by decide)).2.1) Campo.llavaPt
  rw [h]
  decide

/-! ## C5 — correlation tier priority -/

/-- C5: Correlation tier priority of `_row_by_keys`.  The correlation key
defaults to the content digest when the fragment has no `job_id`; with no
key the resolver matches nothing.  Tier 1: when the fragment carries a
digest and a row with the same `(job_id, sha256)` exists, the resolver
returns such a row, and within the tier the highest id wins.  Tier 2: only
when tier 1 yields nothing (no digest, or no exact match), the resolver
returns exactly the most recent row with the same `job_id` and only when
its last-update timestamp is within `UPDATE_WINDOW_SEC` of now.  When no
tier matches, the endpoint creates a new incident under a fresh id. -/
theorem correlation_tier_priority (hash : String → String) (cfg : Config)
    (db : DB) (p : EvPayload) (now : Nat) (base : Evento)
    (hbase : base = mkBaseRow hash p now) :
    (base.jobId = (if trim p.jobId = "" then base.sha256 else trim p.jobId))
    ∧ (base.jobId = "" → rowByKeys cfg db base now = none)
    ∧ (base.sha256 ≠ "" →
        ∀ e ∈ db.eventos, e.jobId = base.jobId → e.sha256 = base.sha256 →
          ∃ r, rowByKeys cfg db base now = some r
            ∧ r ∈ db.eventos
            ∧ r.jobId = base.jobId
            ∧ r.sha256 = base.sha256
            ∧ (∀ e2 ∈ db.eventos, e2.jobId = base.jobId →
                e2.sha256 = base.sha256 → e2.id ≤ r.id))
    ∧ (base.jobId ≠ "" →
        (base.sha256 = ""
          ∨ ∀ e ∈ db.eventos, ¬(e.jobId = base.jobId ∧ e.sha256 = base.sha256)) →
        ∀ r, rowByKeys cfg db base now = some r
          ↔ (maxById (db.eventos.filter (fun e => e.jobId = base.jobId)) = some r
             ∧ (now : Int) - (r.timestamp : Int) ≤ (cfg.updateWindowSec : Int)))
    ∧ (rowByKeys cfg db base now = none →
        (receberEventoCore hash cfg db p now).2 = nextId db
        ∧ rowById db (nextId db) = none
        ∧ (receberEventoCore hash cfg db p now).1.eventos.length
            = db.eventos.length + 1) := by
  refine ⟨?_, fun hj => ?_, fun hsha e he hej hes => ?_, fun hjob htier1 r => ?_,
    fun hnone => ?_⟩
  · rw [hbase]
    rfl
  · unfold rowByKeys
    rw [if_pos hj]
  · have hjob : base.jobId ≠ "" := by
      rw [hbase] at hsha ⊢
      show (if trim p.jobId = "" then (mkBaseRow hash p now).sha256
        else trim p.jobId) ≠ ""
      by_cases ht : trim p.jobId = ""
      · rw [if_pos ht]; exact hsha
      · rw [if_neg ht]; exact ht
    have hmem : e ∈ db.eventos.filter
        (fun x => x.jobId = base.jobId && x.sha256 = base.sha256) := by
      rw [List.mem_filter]
      exact ⟨he, by simp [hej, hes]⟩
    unfold rowByKeys
    rw [if_neg hjob, if_pos hsha]
    cases hm : maxById (db.eventos.filter
        (fun x => x.jobId = base.jobId && x.sha256 = base.sha256)) with
    | none =>
      rw [maxById_none_iff] at hm
      rw [hm] at hmem
      cases hmem
    | some m =>
      have hmm := List.mem_filter.mp (maxById_mem _ _ hm)
      have hprops := hmm.2
      simp only [Bool.and_eq_true, decide_eq_true_eq] at hprops
      refine ⟨m, by simp only [hm], hmm.1, hprops.1, hprops.2, fun e2 he2 hej2 hes2 => ?_⟩
      exact maxById_isMax _ _ hm e2 (List.mem_filter.mpr ⟨he2, by simp [hej2, hes2]⟩)
  · have h1 : (if base.sha256 ≠ "" then
        maxById (db.eventos.filter
          (fun e => e.jobId = base.jobId && e.sha256 = base.sha256))
      else none) = none := by
      rcases htier1 with hempty | hnone
      · rw [if_neg (fun h => h hempty)]
      · by_cases hsha : base.sha256 ≠ ""
        · rw [if_pos hsha, maxById_none_iff]
          refine List.filter_eq_nil_iff.mpr (fun a ha => ?_)
          simp only [Bool.and_eq_true, decide_eq_true_eq, not_and]
          exact fun h1 h2 => (hnone a ha) ⟨h1, h2⟩
        · rw [if_neg hsha]
    unfold rowByKeys
    rw [if_neg hjob]
    simp only [h1]
    constructor
    · intro hres
      cases hm2 : maxById (db.eventos.filter (fun e => e.jobId = base.jobId)) with
      | none =>
        simp only [hm2] at hres
        exact Option.noConfusion hres
      | some m2 =>
        simp only [hm2] at hres
        by_cases hw : (now : Int) - (m2.timestamp : Int) ≤ (cfg.updateWindowSec : Int)
        · rw [if_pos hw] at hres
          injection hres with hres
          subst hres
          exact ⟨rfl, hw⟩
        · rw [if_neg hw] at hres
          cases hres
    · rintro ⟨hm2, hw⟩
      simp only [hm2]
      rw [if_pos hw]
  · subst hbase
    have hcore : receberEventoCore hash cfg db p now
        = insertEvento db (mkBaseRow hash p now) := by
      simp only [receberEventoCore, hnone]
    refine ⟨?_, rowById_nextId db, ?_⟩
    · rw [hcore]
      rfl
    · rw [hcore]
      simp [insertEvento]

/-- C5 witness: a fragment for job `J` with no digest, ten seconds after
incident 1's last update, resolves through tier 2 to incident 1. -/
theorem correlation_tier_priority_witness :
    ((mkBaseRow hashD pC1w 110).jobId ≠ "" ∧ (mkBaseRow hashD pC1w 110).sha256 = "")
    ∧ rowByKeys cfgS dbC1 (mkBaseRow hashD pC1w 110) 110 = some rowC1 := by
  refine ⟨⟨by decide, by decide⟩, ?_⟩
  have h := (correlation_tier_priority hashD cfgS dbC1 pC1w 110
    (mkBaseRow hashD pC1w 110) rfl).2.2.2.1
  exact (h (by decide) (Or.inl (by decide)) rowC1).mpr ⟨by decide, by decide⟩

/-! ## C2 — digest uniqueness under confirmation -/

theorem digestConfirmUnique_update (db : DB) (i : Nat) (f : Evento → Evento)
    (hU : uniqueIds db) (hInv : digestConfirmUnique db)
    (hsafe : ∀ e ∈ db.eventos, e.id = i →
      ((f e).confirmado ≠ CONFIRM_VALUE ∨ (f e).sha256 = ""
        ∨ (∀ e2 ∈ db.eventos, e2.id ≠ i → e2.sha256 = (f e).sha256 →
            e2.confirmado ≠ CONFIRM_VALUE))) :
    digestConfirmUnique (updateEvento db i f) := by
  intro e1h h1 e2h h2 hsha1 hsheq hc1 hc2
  simp only [updateEvento, List.mem_map] at h1 h2
  obtain ⟨e1, he1, hge1⟩ := h1
  obtain ⟨e2, he2, hge2⟩ := h2
  by_cases hi1 : e1.id = i <;> by_cases hi2 : e2.id = i
  · have : e1 = e2 := uniqueIds_eq hU e1 he1 e2 he2 (by rw [hi1, hi2])
    subst this
    rw [← hge1, ← hge2]
  · rw [if_pos hi1] at hge1
    rw [if_neg hi2] at hge2
    rcases hsafe e1 he1 hi1 with hs | hs | hs
    · exact absurd (hge1 ▸ hc1) hs
    · exact absurd (hge1 ▸ hsha1) (by rw [hs]; exact fun h => h rfl)
    · exact absurd (hge2 ▸ hc2)
        (hs e2 he2 hi2 (by rw [← hge1] at hsheq; rw [hge2]; exact hsheq.symm ▸ rfl))
  · rw [if_neg hi1] at hge1
    rw [if_pos hi2] at hge2
    rcases hsafe e2 he2 hi2 with hs | hs | hs
    · exact absurd (hge2 ▸ hc2) hs
    · rw [← hge2, hs] at hsheq
      exact absurd hsheq hsha1
    · exact absurd (hge1 ▸ hc1)
        (hs e1 he1 hi1 (by rw [← hge2] at hsheq; rw [hge1]; exact hsheq))
  · rw [if_neg hi1] at hge1
    rw [if_neg hi2] at hge2
    rw [← hge1, ← hge2]
    exact hInv e1 he1 e2 he2 (hge1 ▸ hsha1) (by rw [hge1, hge2]; exact hsheq)
      (hge1 ▸ hc1) (hge2 ▸ hc2)

theorem digestConfirmUnique_congr (db : DB) (i : Nat) (f : Evento → Evento)
    (hInv : digestConfirmUnique db)
    (hpres : ∀ e, (f e).sha256 = e.sha256 ∧ (f e).confirmado = e.confirmado
      ∧ (f e).id = e.id) :
    digestConfirmUnique (updateEvento db i f) := by
  intro e1h h1 e2h h2 hsha1 hsheq hc1 hc2
  simp only [updateEvento, List.mem_map] at h1 h2
  obtain ⟨e1, he1, hge1⟩ := h1
  obtain ⟨e2, he2, hge2⟩ := h2
  have hg : ∀ e : Evento,
      ((if e.id = i then f e else e).sha256 = e.sha256
        ∧ (if e.id = i then f e else e).confirmado = e.confirmado
        ∧ (if e.id = i then f e else e).id = e.id) := by
    intro e
    by_cases h : e.id = i
    · rw [if_pos h]; exact hpres e
    · rw [if_neg h]; exact ⟨rfl, rfl, rfl⟩
  have h1s := hg e1
  have h2s := hg e2
  rw [hge1] at h1s
  rw [hge2] at h2s
  rw [h1s.2.2, h2s.2.2]
  exact hInv e1 he1 e2 he2 (h1s.1 ▸ hsha1)
    (by rw [← h1s.1, ← h2s.1]; exact hsheq) (h1s.2.1 ▸ hc1) (h2s.2.1 ▸ hc2)

theorem digestConfirmUnique_refresh (db : DB) (i : Nat)
    (hInv : digestConfirmUnique db) :
    digestConfirmUnique (refreshTratamentoFlat db i) := by
  simp only [refreshTratamentoFlat]
  split
  · exact digestConfirmUnique_congr db i _ hInv (fun e => ⟨rfl, rfl, rfl⟩)
  · exact digestConfirmUnique_congr db i _ hInv (fun e => ⟨rfl, rfl, rfl⟩)

/-- The safety argument shared by both confirm endpoints: the UPDATE they
run on a target whose stored digest is non-empty or whose inline image is
absent cannot create a second confirmed row for an already-confirmed
digest. -/
theorem confirm_update_safe (hash : String → String) (db : DB) (i : Nat)
    (cur : Evento) (conf relato operador va ci ea : String) (now : Nat)
    (hU : uniqueIds db) (hT : trimNormalized db)
    (hrow : rowById db i = some cur) (hcase : cur.sha256 ≠ "" ∨ cur.imagem = "")
    (hcf : trim cur.sha256 ≠ "" → conflictOutroRegistro db (trim cur.sha256) i = none) :
    ∀ e ∈ db.eventos, e.id = i →
      ((confirmUpdate hash cur conf relato operador va ci ea now e).confirmado
          ≠ CONFIRM_VALUE
        ∨ (confirmUpdate hash cur conf relato operador va ci ea now e).sha256 = ""
        ∨ (∀ e2 ∈ db.eventos, e2.id ≠ i →
            e2.sha256 = (confirmUpdate hash cur conf relato operador va ci ea now e).sha256 →
            e2.confirmado ≠ CONFIRM_VALUE)) := by
  intro e he hei
  simp only [confirmUpdate]
  have hecur : e = cur :=
    uniqueIds_eq hU e he cur (rowById_mem hrow).1 (by rw [hei, (rowById_mem hrow).2])
  subst hecur
  by_cases hsha0 : e.sha256 = ""
  · right; left
    rw [if_neg (fun h => h hsha0)]
    rcases hcase with hsha | himg
    · exact absurd hsha0 hsha
    · rw [if_neg (fun h => h.2 himg)]
  · right; right
    intro e2 he2 hne2 hsha2
    rw [if_pos hsha0] at hsha2
    have htrim : trim e.sha256 = e.sha256 := (hT e he).1
    have hshaNe : trim e.sha256 ≠ "" := by rw [htrim]; exact hsha0
    have hcf2 := hcf hshaNe
    unfold conflictOutroRegistro at hcf2
    rw [maxById_none_iff] at hcf2
    have hnot := List.filter_eq_nil_iff.mp hcf2 e2 he2
    simp only [Bool.and_eq_true, decide_eq_true_eq, not_and] at hnot
    intro hc2
    exact hnot ⟨by rw [hsha2, htrim], hc2⟩ hne2

/-- C2 (amended): digest uniqueness under confirmation holds for every
confirm whose target row either already stores a non-empty digest or has no
inline image bytes: starting from a state with unique ids, trim-normalised
digests/flags and the uniqueness invariant, both the JSON endpoint and the
browser UI preserve the invariant.  (The counterexample shows the remaining
path — empty stored digest with inline bytes, where the digest is computed
lazily AFTER the conflict check — can confirm a second row sharing an
already-confirmed digest.) -/
theorem digest_uniqueness_amended (hash : String → String) (db : DB)
    (p : ApiConfirmarPayload) (pu : UiConfirmPayload) (now : Nat)
    (hU : uniqueIds db) (hT : trimNormalized db) (hInv : digestConfirmUnique db) :
    (∀ cur, rowById db p.id = some cur → (cur.sha256 ≠ "" ∨ cur.imagem = "") →
      digestConfirmUnique (apiConfirmar hash db p now).1)
    ∧ (∀ cur, rowById db pu.id = some cur → (cur.sha256 ≠ "" ∨ cur.imagem = "") →
      digestConfirmUnique (confirmarUiPost hash db pu now).1) := by
  constructor
  · intro cur hrow hcase
    unfold apiConfirmar
    by_cases hval : p.id = 0 ∨ trim p.relato = ""
    · rw [if_pos hval]; exact hInv
    · rw [if_neg hval]
      simp only [hrow]
      by_cases halready : trim cur.confirmado = CONFIRM_VALUE
      · rw [if_pos halready]; exact hInv
      · rw [if_neg halready]
        cases hcf : (if trim cur.sha256 ≠ "" then
            conflictOutroRegistro db (trim cur.sha256) p.id else none) with
        | some other => simp only [hcf]; exact hInv
        | none =>
          simp only [hcf]
          refine digestConfirmUnique_update db p.id _ hU hInv ?_
          exact confirm_update_safe hash db p.id cur _ _ _ _ _ _ now hU hT hrow hcase
            (fun hne => by rw [if_pos hne] at hcf; exact hcf)
  · intro cur hrow hcase
    simp only [confirmarUiPost]
    by_cases h0 : pu.id = 0
    · rw [if_pos h0]; exact hInv
    · rw [if_neg h0]
      simp only [hrow]
      by_cases halready :
          trim (if pu.action = "" then "confirmar" else pu.action) ≠ "desconfirmar"
            ∧ trim cur.confirmado = CONFIRM_VALUE
      · rw [if_pos halready]; exact hInv
      · rw [if_neg halready]
        cases hcf : (if trim (if pu.action = "" then "confirmar" else pu.action)
              ≠ "desconfirmar" ∧ trim cur.sha256 ≠ "" then
            conflictOutroRegistro db (trim cur.sha256) pu.id else none) with
        | some other => simp only [hcf]; exact hInv
        | none =>
          simp only [hcf]
          by_cases haction :
              trim (if pu.action = "" then "confirmar" else pu.action) = "desconfirmar"
          · rw [if_pos haction]
            exact digestConfirmUnique_update db pu.id clearConfirm hU hInv
              (fun e he hei => Or.inl (by simp [clearConfirm, CONFIRM_VALUE]))
          · rw [if_neg haction]
            by_cases hrel : trim pu.relato = ""
            · rw [if_pos hrel]; exact hInv
            · rw [if_neg hrel]
              refine digestConfirmUnique_refresh _ pu.id ?_
              show digestConfirmUnique (updateEvento db pu.id _)
              refine digestConfirmUnique_update db pu.id _ hU hInv ?_
              exact confirm_update_safe hash db pu.id cur CONFIRM_VALUE _ _ _ _ _ now hU hT hrow hcase
                (fun hne => by rw [if_pos ⟨haction, hne⟩] at hcf; exact hcf)

/-- A confirmed incident with digest `d`. -/
def rowC2a : Evento := { Evento.blank with id := 1, sha256 := "d", confirmado := "SIM" }

/-- A pre-digest incident: inline image bytes stored, `sha256` still empty
(such rows predate the digest column; the spec's content-rediscovery tier
exists precisely for them). -/
def rowC2b : Evento := { Evento.blank with id := 2, imagem := "IMG" }

/-- Counterexample store: the image of incident 2 hashes to `d`, the digest
already confirmed on incident 1. -/
def dbC2 : DB := ⟨[rowC2a, rowC2b], [], [], [], [], [], [], []⟩

/-- C2 counterexample: confirming incident 2 succeeds — its digest is
computed lazily AFTER the conflict check was skipped (the stored digest was
empty) — leaving two rows with digest `d` and `confirmado = 'SIM'`. -/
theorem digest_uniqueness_counterexample :
    digestConfirmUnique dbC2
    ∧ (apiConfirmar hashD dbC2 { id := 2, relato := "confirmo" } 2000).2 = .ok
    ∧ ((rowById (apiConfirmar hashD dbC2 { id := 2, relato := "confirmo" } 2000).1 2).map
        (fun e => (e.sha256, e.confirmado)) = some ("d", "SIM"))
    ∧ ((rowById dbC2 1).map (fun e => (e.sha256, e.confirmado)) = some ("d", "SIM"))
    ∧ ¬ digestConfirmUnique
        (apiConfirmar hashD dbC2 { id := 2, relato := "confirmo" } 2000).1 := by
  decide

/-- An unconfirmed incident with its own stored digest. -/
def rowC2c : Evento := { Evento.blank with id := 3, sha256 := "x" }

/-- Witness store: one confirmed digest-`d` row, one unconfirmed digest-`x`
row. -/
def dbC2w : DB := ⟨[rowC2a, rowC2c], [], [], [], [], [], [], []⟩

/-- C2 witness: confirming the digest-bearing incident 3 preserves the
uniqueness invariant. -/
theorem digest_uniqueness_witness :
    (uniqueIds dbC2w ∧ trimNormalized dbC2w ∧ digestConfirmUnique dbC2w
      ∧ rowById dbC2w 3 = some rowC2c ∧ rowC2c.sha256 ≠ "")
    ∧ digestConfirmUnique (apiConfirmar hashD dbC2w { id := 3, relato := "re" } 9).1 :=
  ⟨⟨by decide, by decide, by decide, by decide, by decide⟩,
   (digest_uniqueness_amended hashD dbC2w { id := 3, relato := "re" } { id := 3 } 9
     (by decide) (by decide) (by decide)).1 rowC2c (by decide) (Or.inl (by decide))⟩

/-! ## C10 — caller-supplied confirmado value -/

/-- C10: the JSON confirmation endpoint stores the caller-supplied
`confirmado` string rather than the fixed `'SIM'` marker.  For a valid
request carrying a non-empty value `v ≠ 'SIM'` (already whitespace-free,
as `_trim` is applied before storing) on an unconfirmed, unconflicted
target: the call succeeds, the row's flag becomes `v`, the row fails the
`confirmado = 'SIM'` query filter and passes the `NAO` filter, a later
confirm of the same row is never answered with `already_confirmed`, and
for any digest with no previously confirmed row the conflict lookup over
the new state still finds nothing (the `v`-flagged row does not block a
later confirmation sharing its digest). -/
theorem stored_confirmado_value (hash : String → String) (db : DB)
    (p : ApiConfirmarPayload) (now : Nat) (cur : Evento)
    (hid : p.id ≠ 0)
    (hrow : rowById db p.id = some cur)
    (hrel : trim p.relato ≠ "")
    (hptrim : trim p.confirmado = p.confirmado)
    (hval : p.confirmado ≠ "")
    (hvalSim : p.confirmado ≠ CONFIRM_VALUE)
    (hnotconf : trim cur.confirmado ≠ CONFIRM_VALUE)
    (hcf : trim cur.sha256 ≠ "" →
      conflictOutroRegistro db (trim cur.sha256) p.id = none) :
    (apiConfirmar hash db p now).2 = .ok
    ∧ rowById (apiConfirmar hash db p now).1 p.id
        = some (confirmUpdate hash cur p.confirmado (trim p.relato)
            (trim p.operador)
            (if trim p.vitimasAparentes = "SIM" then "SIM" else "")
            (if trim p.criancasOuIdosos = "SIM" then "SIM" else "")
            (if trim p.emAndamento = "SIM" then "SIM" else "") now cur)
    ∧ (confirmUpdate hash cur p.confirmado (trim p.relato) (trim p.operador)
        (if trim p.vitimasAparentes = "SIM" then "SIM" else "")
        (if trim p.criancasOuIdosos = "SIM" then "SIM" else "")
        (if trim p.emAndamento = "SIM" then "SIM" else "") now cur).confirmado
        = p.confirmado
    ∧ filtroConfirmadoSim (confirmUpdate hash cur p.confirmado (trim p.relato)
        (trim p.operador)
        (if trim p.vitimasAparentes = "SIM" then "SIM" else "")
        (if trim p.criancasOuIdosos = "SIM" then "SIM" else "")
        (if trim p.emAndamento = "SIM" then "SIM" else "") now cur) = false
    ∧ filtroConfirmadoNao (confirmUpdate hash cur p.confirmado (trim p.relato)
        (trim p.operador)
        (if trim p.vitimasAparentes = "SIM" then "SIM" else "")
        (if trim p.criancasOuIdosos = "SIM" then "SIM" else "")
        (if trim p.emAndamento = "SIM" then "SIM" else "") now cur) = true
    ∧ (∀ p2 now2, p2.id = p.id →
        (apiConfirmar hash (apiConfirmar hash db p now).1 p2 now2).2
          ≠ .okAlready p2.id)
    ∧ (∀ sha j, (∀ e ∈ db.eventos, e.confirmado = CONFIRM_VALUE → e.sha256 ≠ sha) →
        conflictOutroRegistro (apiConfirmar hash db p now).1 sha j = none) := by
  have hconfval : (if trim (if p.confirmado = "" then CONFIRM_VALUE else p.confirmado)
        = "" then CONFIRM_VALUE
      else trim (if p.confirmado = "" then CONFIRM_VALUE else p.confirmado))
      = p.confirmado := by
    rw [if_neg hval, hptrim, if_neg hval]
  have hcfnone : (if trim cur.sha256 ≠ "" then
      conflictOutroRegistro db (trim cur.sha256) p.id else none) = none := by
    by_cases hs : trim cur.sha256 ≠ ""
    · rw [if_pos hs]; exact hcf hs
    · rw [if_neg hs]
  have hapi : apiConfirmar hash db p now
      = (updateEvento db p.id
          (confirmUpdate hash cur p.confirmado (trim p.relato) (trim p.operador)
            (if trim p.vitimasAparentes = "SIM" then "SIM" else "")
            (if trim p.criancasOuIdosos = "SIM" then "SIM" else "")
            (if trim p.emAndamento = "SIM" then "SIM" else "") now), .ok) := by
    simp only [apiConfirmar]
    rw [if_neg (by push_neg; exact ⟨hid, hrel⟩)]
    simp only [hrow]
    rw [if_neg hnotconf]
    simp only [hcfnone]
    rw [hconfval]
  have hrowpost : rowById (apiConfirmar hash db p now).1 p.id
      = some (confirmUpdate hash cur p.confirmado (trim p.relato) (trim p.operador)
          (if trim p.vitimasAparentes = "SIM" then "SIM" else "")
          (if trim p.criancasOuIdosos = "SIM" then "SIM" else "")
          (if trim p.emAndamento = "SIM" then "SIM" else "") now cur) := by
    rw [hapi]
    show rowById (updateEvento db p.id
        (confirmUpdate hash cur p.confirmado (trim p.relato) (trim p.operador)
          (if trim p.vitimasAparentes = "SIM" then "SIM" else "")
          (if trim p.criancasOuIdosos = "SIM" then "SIM" else "")
          (if trim p.emAndamento = "SIM" then "SIM" else "") now)) p.id = _
    rw [rowById_updateEvento db p.id
      (confirmUpdate hash cur p.confirmado (trim p.relato) (trim p.operador)
        (if trim p.vitimasAparentes = "SIM" then "SIM" else "")
        (if trim p.criancasOuIdosos = "SIM" then "SIM" else "")
        (if trim p.emAndamento = "SIM" then "SIM" else "") now) (fun e => rfl)]
    rw [hrow]
    rfl
  refine ⟨by rw [hapi], hrowpost, rfl, ?_, ?_, ?_, ?_⟩
  · exact decide_eq_false hvalSim
  · simp [filtroConfirmadoNao, confirmUpdate, hvalSim]
  · intro p2 now2 hp2
    by_cases hv2 : p2.id = 0 ∨ trim p2.relato = ""
    · simp only [apiConfirmar]
      rw [if_pos hv2]
      intro h
      cases h
    · have hrp : rowById (apiConfirmar hash db p now).1 p2.id
          = some (confirmUpdate hash cur p.confirmado (trim p.relato)
              (trim p.operador)
              (if trim p.vitimasAparentes = "SIM" then "SIM" else "")
              (if trim p.criancasOuIdosos = "SIM" then "SIM" else "")
              (if trim p.emAndamento = "SIM" then "SIM" else "") now cur) := by
        rw [hp2]
        exact hrowpost
      generalize hgen : (apiConfirmar hash db p now).1 = db2 at hrp ⊢
      simp only [apiConfirmar]
      rw [if_neg hv2]
      simp only [hrp]
      have hcur2 : trim (confirmUpdate hash cur p.confirmado (trim p.relato)
          (trim p.operador)
          (if trim p.vitimasAparentes = "SIM" then "SIM" else "")
          (if trim p.criancasOuIdosos = "SIM" then "SIM" else "")
          (if trim p.emAndamento = "SIM" then "SIM" else "") now cur).confirmado
          ≠ CONFIRM_VALUE := by
        show trim p.confirmado ≠ CONFIRM_VALUE
        rw [hptrim]
        exact hvalSim
      rw [if_neg hcur2]
      cases hm : (if trim (confirmUpdate hash cur p.confirmado (trim p.relato)
            (trim p.operador)
            (if trim p.vitimasAparentes = "SIM" then "SIM" else "")
            (if trim p.criancasOuIdosos = "SIM" then "SIM" else "")
            (if trim p.emAndamento = "SIM" then "SIM" else "") now cur).sha256 ≠ "" then
          conflictOutroRegistro db2
            (trim (confirmUpdate hash cur p.confirmado (trim p.relato)
              (trim p.operador)
              (if trim p.vitimasAparentes = "SIM" then "SIM" else "")
              (if trim p.criancasOuIdosos = "SIM" then "SIM" else "")
              (if trim p.emAndamento = "SIM" then "SIM" else "") now cur).sha256) p2.id
          else none) with
      | some o =>
        simp only [hm]
        intro h
        cases h
      | none =>
        simp only [hm]
        intro h
        cases h
  · intro sha j hnosim
    rw [hapi]
    show conflictOutroRegistro (updateEvento db p.id
        (confirmUpdate hash cur p.confirmado (trim p.relato) (trim p.operador)
          (if trim p.vitimasAparentes = "SIM" then "SIM" else "")
          (if trim p.criancasOuIdosos = "SIM" then "SIM" else "")
          (if trim p.emAndamento = "SIM" then "SIM" else "") now)) sha j = none
    unfold conflictOutroRegistro
    rw [maxById_none_iff]
    refine List.filter_eq_nil_iff.mpr (fun a ha => ?_)
    simp only [updateEvento, List.mem_map] at ha
    obtain ⟨e, he, hge⟩ := ha
    simp only [Bool.and_eq_true, decide_eq_true_eq, not_and]
    intro hpair
    by_cases hei : e.id = p.id
    · rw [if_pos hei] at hge
      exfalso
      have : p.confirmado = CONFIRM_VALUE := by
        rw [← hge] at hpair
        exact hpair.2
      exact hvalSim this
    · rw [if_neg hei] at hge
      subst hge
      intro hidj
      exact absurd hpair.1 (hnosim e he hpair.2)

/-- Confirmation request carrying the non-standard flag value `TALVEZ`. -/
def pC10 : ApiConfirmarPayload := { id := 3, relato := "ver", confirmado := "TALVEZ" }

/-- C10 witness: confirming incident 3 with `confirmado = "TALVEZ"`
succeeds, and the stored flag is the caller's string, which fails the
`SIM` filter. -/
theorem stored_confirmado_value_witness :
    (rowById dbC2w 3 = some rowC2c
      ∧ trim pC10.confirmado = pC10.confirmado
      ∧ pC10.confirmado ≠ CONFIRM_VALUE)
    ∧ (apiConfirmar hashD dbC2w pC10 9).2 = .ok
    ∧ ((rowById (apiConfirmar hashD dbC2w pC10 9).1 3).map
        (fun e => (e.confirmado, filtroConfirmadoSim e, filtroConfirmadoNao e))
      = some ("TALVEZ", false, true)) := by
  refine ⟨⟨by decide, by decide, by decide⟩, ?_, by decide⟩
  exact (stored_confirmado_value hashD dbC2w pC10 9 rowC2c (by decide) (by decide)
    (by decide) (by decide) (by decide) (by decide) (by decide)
    (fun h => by decide)).1

end App
